import Mathlib

set_option linter.unusedVariables false

/-
  Verification development for the compartmental disease-model engine in
  `summer_model.py` (classes `EpiModel` and `StratifiedModel`).

  The Python code is shallowly embedded: the mutable model object becomes the
  `Model` structure passed and returned explicitly; Python dicts become
  association lists (`Dict`), preserving insertion order and first-match
  lookup; floats become `ℚ`; code that can raise (KeyError on dict indexing,
  ValueError from `list.index`, ZeroDivisionError, UnboundLocalError) returns
  `Except String`.  Output-only bookkeeping (`output_to_user`, derived-output
  tracking appended per evaluation) is omitted as it never affects the values
  the claims are about.
-/

namespace SummerModel

/-- Association list standing for a Python dict: insertion order preserved,
lookup returns the first (unique, for a real dict) match. -/
abbrev Dict (β : Type) : Type := List (String × β)

/-- First-match lookup, the reading counterpart of Python `d[k]` /  `k in d`. -/
def dictLookup {β : Type} : Dict β → String → Option β
  | [], _ => none
  | (k, v) :: rest, key => if k = key then some v else dictLookup rest key

/-- Python `d[k] = v`: replace the value in place if the key exists, otherwise
append a new entry at the end (dicts preserve insertion order). -/
def dictInsert {β : Type} : Dict β → String → β → Dict β
  | [], key, value => [(key, value)]
  | (k, v) :: rest, key, value =>
    if k = key then (k, value) :: rest else (k, v) :: dictInsert rest key value

/-- Python `d.update(other)`: insert every entry of `other` in order. -/
def dictUpdate {β : Type} : Dict β → Dict β → Dict β
  | d, [] => d
  | d, (k, v) :: rest => dictUpdate (dictInsert d k v) rest

/-- The keys of a dict, in order. -/
def dictKeys {β : Type} (d : Dict β) : List String := d.map Prod.fst

/-- The values of a dict, in order. -/
def dictValues {β : Type} (d : Dict β) : List β := d.map Prod.snd

/-
  helper functions from the top of summer_model.py
-/

/-- `find_stem`: the text of a compartment/parameter name leading up to the
first occurrence of "X" (the whole string when no "X" occurs). -/
def find_stem (stratified_string : String) : String :=
  (stratified_string.toList.takeWhile (fun c => c ≠ 'X')).asString

/-- `create_stratum_name`: "X%s_%s" % (stratification_name, str(stratum_name));
stratum labels are already strings here. -/
def create_stratum_name (stratification_name stratum_name : String) : String :=
  "X" ++ stratification_name ++ "_" ++ stratum_name

/-- `create_stratified_name`: stem + stratum suffix. -/
def create_stratified_name (stem stratification_name stratum_name : String) : String :=
  stem ++ create_stratum_name stratification_name stratum_name

/-- `extract_x_positions`: the character positions of "X" within the string in
ascending order, with the string length appended. -/
def extract_x_positions (parameter : String) : List Nat :=
  ((List.range parameter.length).filter
    (fun loc => parameter.toList.getD loc ' ' = 'X')) ++ [parameter.length]

/-- `extract_reversed_x_positions`: the same list reversed, so the length comes
first and the deepest layers are visited first. -/
def extract_reversed_x_positions (parameter : String) : List Nat :=
  (extract_x_positions parameter).reverse

/-- Python `s[: n]` on a string. -/
def string_take (s : String) (n : Nat) : String :=
  (s.toList.take n).asString

/-- `increment_compartment`: `ode_equations[compartment_number] += increment`. -/
def increment_compartment (ode_equations : List ℚ) (compartment_number : Nat)
    (increment : ℚ) : List ℚ :=
  ode_equations.set compartment_number
    (ode_equations.getD compartment_number 0 + increment)

/-- `normalise_dict`: divide every value by the sum of all values.  Python
raises ZeroDivisionError when a division is attempted with a zero sum, which
happens exactly when the dict is non-empty and its values sum to zero. -/
def normalise_dict (value_dict : Dict ℚ) : Except String (Dict ℚ) :=
  let total := (dictValues value_dict).sum
  if value_dict ≠ [] ∧ total = 0 then Except.error "ZeroDivisionError"
  else Except.ok (value_dict.map (fun kv => (kv.1, kv.2 / total)))

/-- Python `list.index(name)`: position of the first occurrence, ValueError
when absent. -/
def pyIndex : List String → String → Except String Nat
  | [], _ => Except.error "ValueError: name is not in list"
  | n :: rest, name =>
    if n = name then Except.ok 0
    else
      match pyIndex rest name with
      | Except.ok i => Except.ok (i + 1)
      | Except.error e => Except.error e

/-
  data model
-/

/-- One row of the `transition_flows` data frame.  The destination column is
called "to" in the source; `to` is reserved in Lean, hence `toC`. -/
structure TransitionFlow where
  type : String
  parameter : String
  origin : String
  toC : String
  implement : Nat
deriving DecidableEq, Repr

/-- One row of the `death_flows` data frame (no destination). -/
structure DeathFlow where
  type : String
  parameter : String
  origin : String
  implement : Nat
deriving DecidableEq, Repr

/-- The per-parameter decomposition cached by `find_parameter_components`. -/
structure ParameterComponents where
  time_variants : List String
  constants : List String
  constant_value : ℚ
deriving DecidableEq, Repr

/-- One value of the `adjustment_requests` mapping handed to `stratify`: the
per-stratum adjustments and the strata whose adjustment overwrites all
ancestor layers ("overwrite" key absent in Python is modelled as `[]`, which
makes the same membership tests false). -/
structure AdjustmentRequest where
  adjustments : Dict ℚ
  overwrite : List String
deriving DecidableEq, Repr

/-- The adjustment requests of one stratification call, keyed by base
parameter name. -/
abbrev AdjReqs : Type := List (String × AdjustmentRequest)

/-- The mutable state of a `StratifiedModel` instance, restricted to the
fields the verified methods read or write. -/
structure Model where
  compartment_types : List String
  compartment_names : List String
  compartment_values : List ℚ
  removed_compartments : List String
  transition_flows : List TransitionFlow
  death_flows : List DeathFlow
  parameters : Dict ℚ
  time_variants : Dict (ℚ → ℚ)
  tracked_quantities : Dict ℚ
  strata : List String
  overwrite_parameter : List String
  compartment_types_to_stratify : List String
  parameter_components : Dict ParameterComponents
  entry_compartment : String
  birth_approach : String

/-
  StratifiedModel parameter resolver
  (find_parameter_components / get_parameter_value)
-/

/-- The loop of `find_parameter_components`: walk the prefixes of the
stratified parameter name from the deepest layer (the whole name) outward.
An overwrite component that is time-variant resets the components and breaks
the loop; an overwrite component that is a constant resets the components but
the source continues the loop (there is no `break` in that branch), so
shallower components are appended afterwards. -/
def Model.find_parameter_components_loop (m : Model) (parameter : String) :
    List Nat → ParameterComponents → ParameterComponents
  | [], acc => acc
  | x_instance :: rest, acc =>
    let component := string_take parameter x_instance
    let is_time_variant := (dictLookup m.time_variants component).isSome
    if m.overwrite_parameter.contains component && is_time_variant then
      { time_variants := [component], constants := [], constant_value := 1 }
    else if m.overwrite_parameter.contains component && !is_time_variant then
      m.find_parameter_components_loop parameter rest
        { time_variants := [], constants := [component], constant_value := 1 }
    else if is_time_variant then
      m.find_parameter_components_loop parameter rest
        { acc with time_variants := acc.time_variants ++ [component] }
    else if (dictLookup m.parameters component).isSome then
      m.find_parameter_components_loop parameter rest
        { acc with constants := acc.constants ++ [component] }
    else
      m.find_parameter_components_loop parameter rest acc

/-- `find_parameter_components`: collate the layer components of a stratified
parameter, then pre-multiply the constant components into `constant_value`
(every name in `constants` was found in `parameters`, so the `getD 0` default
of the final product is never taken on the paths the model exercises). -/
def Model.find_parameter_components (m : Model) (parameter : String) :
    ParameterComponents :=
  let comps := m.find_parameter_components_loop parameter
    (extract_reversed_x_positions parameter)
    { time_variants := [], constants := [], constant_value := 1 }
  { comps with
    constant_value := comps.constants.foldl
      (fun acc c => acc * (dictLookup m.parameters c).getD 0) comps.constant_value }

/-- Multiply the accumulated value by each time-variant component evaluated at
`time`; a missing registered function would be a Python KeyError. -/
def eval_time_variants (time_variants : Dict (ℚ → ℚ)) (time : ℚ) :
    List String → ℚ → Except String ℚ
  | [], acc => Except.ok acc
  | tv :: rest, acc =>
    match dictLookup time_variants tv with
    | some f => eval_time_variants time_variants time rest (acc * f time)
    | none => Except.error "KeyError: time variant function not registered"

/-- `StratifiedModel.get_parameter_value`: the pre-calculated constant product
times the time-variant components evaluated at `time`; reading an unprepared
parameter is a Python KeyError. -/
def Model.get_parameter_value (m : Model) (parameter : String) (time : ℚ) :
    Except String ℚ :=
  match dictLookup m.parameter_components parameter with
  | none => Except.error "KeyError: parameter components not prepared"
  | some comps =>
    eval_time_variants m.time_variants time comps.time_variants comps.constant_value

/-
  ODE right-hand-side builder (EpiModel.apply_* methods, with the
  StratifiedModel override of apply_birth_rate)
-/

/-- `find_infectious_multiplier`: 1 for standard flows, the tracked infectious
population for density-dependent infection, infectious over total population
for frequency-dependent infection.  The division is unguarded in the source:
a zero total population is a Python ZeroDivisionError. -/
def Model.find_infectious_multiplier (m : Model) (flow_type : String) :
    Except String ℚ :=
  if flow_type = "infection_density" then
    match dictLookup m.tracked_quantities "infectious_population" with
    | some ip => Except.ok ip
    | none => Except.error "KeyError: infectious_population not tracked"
  else if flow_type = "infection_frequency" then
    match dictLookup m.tracked_quantities "infectious_population" with
    | none => Except.error "KeyError: infectious_population not tracked"
    | some ip =>
      match dictLookup m.tracked_quantities "total_population" with
      | none => Except.error "KeyError: total_population not tracked"
      | some total =>
        if total = 0 then Except.error "ZeroDivisionError"
        else Except.ok (ip / total)
  else Except.ok 1

/-- The body of the `apply_transition_flows` loop for one active flow:
resolve the adjusted parameter, the infectious multiplier and the endpoint
indices, then move `net_flow` from origin to destination. -/
def apply_flow (m : Model) (compartment_values : List ℚ) (time : ℚ)
    (ode_equations : List ℚ) (f : TransitionFlow) : Except String (List ℚ) :=
  match m.get_parameter_value f.parameter time with
  | Except.error e => Except.error e
  | Except.ok adjusted_parameter =>
    match m.find_infectious_multiplier f.type with
    | Except.error e => Except.error e
    | Except.ok infectious_population =>
      match pyIndex m.compartment_names f.origin with
      | Except.error e => Except.error e
      | Except.ok from_compartment =>
        match pyIndex m.compartment_names f.toC with
        | Except.error e => Except.error e
        | Except.ok to_compartment =>
          let net_flow := adjusted_parameter *
            compartment_values.getD from_compartment 0 * infectious_population
          Except.ok (increment_compartment
            (increment_compartment ode_equations from_compartment (-net_flow))
            to_compartment net_flow)

/-- The flows applied by one right-hand-side evaluation: exactly those whose
`implement` tag equals the current number of stratifications. -/
def Model.active_transition_flows (m : Model) : List TransitionFlow :=
  m.transition_flows.filter (fun f => f.implement = m.strata.length)

/-- Recursion over the active transition flows. -/
def apply_transition_flows_aux (m : Model) (compartment_values : List ℚ)
    (time : ℚ) : List TransitionFlow → List ℚ → Except String (List ℚ)
  | [], ode_equations => Except.ok ode_equations
  | f :: rest, ode_equations =>
    match apply_flow m compartment_values time ode_equations f with
    | Except.error e => Except.error e
    | Except.ok ode =>
      apply_transition_flows_aux m compartment_values time rest ode

/-- `apply_transition_flows`: apply every active transition flow in order.
The derived-output sampling that happens alongside does not touch the rate
vector and is omitted. -/
def Model.apply_transition_flows (m : Model) (ode_equations compartment_values : List ℚ)
    (time : ℚ) : Except String (List ℚ) :=
  apply_transition_flows_aux m compartment_values time m.active_transition_flows ode_equations

/-- `self.tracked_quantities["total_deaths"] += net_flow`, applied only when
the quantity is tracked. -/
def track_deaths (tracked_quantities : Dict ℚ) (net_flow : ℚ) : Dict ℚ :=
  if (dictLookup tracked_quantities "total_deaths").isSome then
    dictInsert tracked_quantities "total_deaths"
      ((dictLookup tracked_quantities "total_deaths").getD 0 + net_flow)
  else tracked_quantities

/-- `apply_compartment_death_flows`: the source loops over every row of the
death-flow frame and applies those whose `implement` tag is current. -/
def apply_compartment_death_flows_aux (m : Model) (compartment_values : List ℚ)
    (time : ℚ) : List DeathFlow → List ℚ → Dict ℚ → Except String (List ℚ × Dict ℚ)
  | [], ode_equations, tracked => Except.ok (ode_equations, tracked)
  | f :: rest, ode_equations, tracked =>
    if f.implement = m.strata.length then
      match m.get_parameter_value f.parameter time with
      | Except.error e => Except.error e
      | Except.ok adjusted_parameter =>
        match pyIndex m.compartment_names f.origin with
        | Except.error e => Except.error e
        | Except.ok from_compartment =>
          let net_flow := adjusted_parameter * compartment_values.getD from_compartment 0
          apply_compartment_death_flows_aux m compartment_values time rest
            (increment_compartment ode_equations from_compartment (-net_flow))
            (track_deaths tracked net_flow)
    else apply_compartment_death_flows_aux m compartment_values time rest ode_equations tracked

/-- `apply_universal_death_flow`: subtract the universal death rate from every
compartment, tracking the deaths when "total_deaths" is a tracked quantity. -/
def apply_universal_death_flow_aux (m : Model) (compartment_values : List ℚ)
    (time : ℚ) : List String → List ℚ → Dict ℚ → Except String (List ℚ × Dict ℚ)
  | [], ode_equations, tracked => Except.ok (ode_equations, tracked)
  | compartment :: rest, ode_equations, tracked =>
    match m.get_parameter_value "universal_death_rate" time with
    | Except.error e => Except.error e
    | Except.ok adjusted_parameter =>
      match pyIndex m.compartment_names compartment with
      | Except.error e => Except.error e
      | Except.ok from_compartment =>
        let net_flow := adjusted_parameter * compartment_values.getD from_compartment 0
        apply_universal_death_flow_aux m compartment_values time rest
          (increment_compartment ode_equations from_compartment (-net_flow))
          (track_deaths tracked net_flow)

/-- `find_total_births`: crude birth rate times total population, the tracked
deaths of this evaluation, or zero for any other birth approach. -/
def Model.find_total_births (m : Model) (compartment_values : List ℚ)
    (tracked : Dict ℚ) : Except String ℚ :=
  if m.birth_approach = "add_crude_birth_rate" then
    match dictLookup m.parameters "crude_birth_rate" with
    | some rate => Except.ok (rate * compartment_values.sum)
    | none => Except.error "KeyError: crude_birth_rate"
  else if m.birth_approach = "replace_deaths" then
    match dictLookup tracked "total_deaths" with
    | some deaths => Except.ok deaths
    | none => Except.error "KeyError: total_deaths"
  else Except.ok 0

/-- The substrings of the compartment name between consecutive X positions
(skipping the X itself), i.e. the `stratification_stratum` suffix pieces used
to look up the entry-fraction parameters. -/
def entry_fraction_segments (compartment : String) : List Nat → List String
  | a :: b :: rest =>
    ((compartment.toList.drop (a + 1)).take (b - (a + 1))).asString ::
      entry_fraction_segments compartment (b :: rest)
  | _ => []

/-- The product of the `entry_fractionX<piece>` parameters over the suffix
pieces (missing parameter: Python KeyError). -/
def entry_fraction_lookup_product (parameters : Dict ℚ) :
    List String → ℚ → Except String ℚ
  | [], acc => Except.ok acc
  | piece :: rest, acc =>
    match dictLookup parameters ("entry_fractionX" ++ piece) with
    | some v => entry_fraction_lookup_product parameters rest (acc * v)
    | none => Except.error "KeyError: entry fraction parameter"

/-- The per-compartment entry fraction of `StratifiedModel.apply_birth_rate`:
1 when the compartment name holds no X, otherwise the product of the
entry-fraction parameters across its stratification layers. -/
def compartment_entry_fraction (parameters : Dict ℚ) (compartment : String) :
    Except String ℚ :=
  let x_positions := extract_x_positions compartment
  if x_positions.length > 1 then
    entry_fraction_lookup_product parameters (entry_fraction_segments compartment x_positions) 1
  else Except.ok 1

/-- `StratifiedModel.apply_birth_rate`: split the total births across every
compartment whose stem is the entry compartment, proportionally to its
entry-fraction product. -/
def apply_birth_rate_aux (m : Model) (total_births : ℚ) :
    List String → List ℚ → Except String (List ℚ)
  | [], ode_equations => Except.ok ode_equations
  | compartment :: rest, ode_equations =>
    if find_stem compartment = m.entry_compartment then
      match compartment_entry_fraction m.parameters compartment with
      | Except.error e => Except.error e
      | Except.ok entry_fraction =>
        match pyIndex m.compartment_names compartment with
        | Except.error e => Except.error e
        | Except.ok idx =>
          apply_birth_rate_aux m total_births rest
            (increment_compartment ode_equations idx (entry_fraction * total_births))
    else apply_birth_rate_aux m total_births rest ode_equations

/-- `apply_all_flow_types_to_odes`: transition flows, then compartment death
flows (when any exist), then the universal death rate, then births. -/
def Model.apply_all_flow_types_to_odes (m : Model)
    (ode_equations compartment_values : List ℚ) (time : ℚ) :
    Except String (List ℚ × Dict ℚ) :=
  match m.apply_transition_flows ode_equations compartment_values time with
  | Except.error e => Except.error e
  | Except.ok ode₁ =>
    match (if m.death_flows.length > 0 then
            apply_compartment_death_flows_aux m compartment_values time
              m.death_flows ode₁ m.tracked_quantities
           else Except.ok (ode₁, m.tracked_quantities)) with
    | Except.error e => Except.error e
    | Except.ok (ode₂, tracked₂) =>
      match apply_universal_death_flow_aux m compartment_values time
              m.compartment_names ode₂ tracked₂ with
      | Except.error e => Except.error e
      | Except.ok (ode₃, tracked₃) =>
        match m.find_total_births compartment_values tracked₃ with
        | Except.error e => Except.error e
        | Except.ok total_births =>
          match apply_birth_rate_aux m total_births m.compartment_names ode₃ with
          | Except.error e => Except.error e
          | Except.ok ode₄ => Except.ok (ode₄, tracked₃)

/-
  EpiModel construction-time validation (the fragment the claims are about)
-/

/-- The specific-requirement checks of `EpiModel.check_and_report_attributes`
(source lines 158-162).  The two conditions below construct a `ValueError`
in the source but never `raise` it, so the function returns normally whatever
the infectious-compartment name and birth approach are; the earlier
`isinstance` checks (which do raise `TypeError`) always pass for arguments of
the types this embedding gives them. -/
def check_and_report_attributes (compartment_types : List String)
    (infectious_compartment birth_approach : String)
    (available_birth_approaches : List String) : Except String Unit :=
  let _unraised_infectious_check :=
    if ¬ infectious_compartment ∈ compartment_types then
      some "ValueError: infectious compartment name is not one of the listed compartment types"
    else none
  let _unraised_birth_check :=
    if ¬ birth_approach ∈ available_birth_approaches then
      some "ValueError: requested birth approach unavailable"
    else none
  Except.ok ()

/-
  StratifiedModel stratifier
-/

/-- `add_compartment`: append a name and its value. -/
def Model.add_compartment (m : Model) (new_compartment_name : String)
    (new_compartment_value : ℚ) : Model :=
  { m with compartment_names := m.compartment_names ++ [new_compartment_name],
           compartment_values := m.compartment_values ++ [new_compartment_value] }

/-- `remove_compartment`: record the removal and delete the name and value at
the name's position (ValueError when absent). -/
def Model.remove_compartment (m : Model) (compartment : String) : Except String Model :=
  match pyIndex m.compartment_names compartment with
  | Except.error e => Except.error e
  | Except.ok idx =>
    Except.ok { m with
      removed_compartments := m.removed_compartments ++ [compartment],
      compartment_values := m.compartment_values.eraseIdx idx,
      compartment_names := m.compartment_names.eraseIdx idx }

/-- `check_compartment_request`: an empty request stratifies every
compartment type; otherwise the availability check (which the source performs
against the attribute left over from the previous stratification rather than
the argument) runs before the argument is installed. -/
def Model.check_compartment_request (m : Model)
    (compartment_types_to_stratify : List String) : Except String Model :=
  if compartment_types_to_stratify.length = 0 then
    Except.ok { m with compartment_types_to_stratify := m.compartment_types }
  else if m.compartment_types_to_stratify.any
      (fun compartment => ¬ m.compartment_types.contains compartment) then
    Except.error "ValueError: requested compartment or compartments to be stratified are not available in this model"
  else
    Except.ok { m with compartment_types_to_stratify := compartment_types_to_stratify }

/-- The second half of `check_parameter_adjustment_requests`: any stratum
without a requested adjustment is given the neutral value 1. -/
def fill_missing_adjustments (strata_names : List String) (adjustments : Dict ℚ) : Dict ℚ :=
  strata_names.foldl
    (fun acc stratum =>
      if (dictLookup acc stratum).isSome then acc else acc ++ [(stratum, 1)])
    adjustments

/-- `check_parameter_adjustment_requests`: reject adjustments for strata that
were not requested, then fill the missing strata of each request with 1. -/
def check_parameter_adjustment_requests (adjustment_requests : AdjReqs)
    (strata_names : List String) : Except String AdjReqs :=
  match adjustment_requests with
  | [] => Except.ok []
  | (parameter, request) :: rest =>
    if request.adjustments.any
        (fun kv => ¬ strata_names.contains kv.1) then
      Except.error "ValueError: stratum requested in adjustments but unavailable"
    else
      match check_parameter_adjustment_requests rest strata_names with
      | Except.error e => Except.error e
      | Except.ok checked =>
        Except.ok ((parameter,
          { request with adjustments := fill_missing_adjustments strata_names request.adjustments })
          :: checked)

/-- The loop of `tidy_starting_proportions`: every stratum without a requested
starting proportion receives `1 / |strata|`. -/
def fill_missing_proportions (equal_share : ℚ) :
    List String → Dict ℚ → Dict ℚ
  | [], requested_proportions => requested_proportions
  | stratum :: rest, requested_proportions =>
    if (dictLookup requested_proportions stratum).isSome then
      fill_missing_proportions equal_share rest requested_proportions
    else
      fill_missing_proportions equal_share rest
        (requested_proportions ++ [(stratum, equal_share)])

/-- `tidy_starting_proportions`: fill the missing strata with an equal share,
then normalise the full dict to sum to one. -/
def tidy_starting_proportions (strata_names : List String)
    (requested_proportions : Dict ℚ) : Except String (Dict ℚ) :=
  normalise_dict
    (fill_missing_proportions (1 / (strata_names.length : ℚ)) strata_names requested_proportions)

/-- The inner loop of `stratify_compartments` for one compartment being
stratified: add one child compartment per stratum, valued at the parent value
times the stratum's (normalised) proportion.  The parent is looked up again
on every iteration in the source; appending children at the end never moves
it, so its index and value are stable. -/
def add_stratified_children (stratification_name : String)
    (requested_proportions : Dict ℚ) (compartment : String) :
    List String → Model → Except String Model
  | [], m => Except.ok m
  | stratum :: rest, m =>
    match pyIndex m.compartment_names compartment with
    | Except.error e => Except.error e
    | Except.ok idx =>
      match dictLookup requested_proportions stratum with
      | none => Except.error "KeyError: no starting proportion for stratum"
      | some proportion =>
        add_stratified_children stratification_name requested_proportions compartment rest
          (m.add_compartment
            (create_stratified_name compartment stratification_name stratum)
            (m.compartment_values.getD idx 0 * proportion))

/-- The outer loop of `stratify_compartments` over a snapshot of the
compartment names: stratify those whose stem is in the stratify set, removing
each parent once its children exist. -/
def stratify_compartments_aux (stratification_name : String)
    (strata_names : List String) (requested_proportions : Dict ℚ) :
    List String → Model → Except String Model
  | [], m => Except.ok m
  | compartment :: rest, m =>
    if m.compartment_types_to_stratify.contains (find_stem compartment) then
      match add_stratified_children stratification_name requested_proportions
              compartment strata_names m with
      | Except.error e => Except.error e
      | Except.ok m₁ =>
        match m₁.remove_compartment compartment with
        | Except.error e => Except.error e
        | Except.ok m₂ =>
          stratify_compartments_aux stratification_name strata_names
            requested_proportions rest m₂
    else
      stratify_compartments_aux stratification_name strata_names
        requested_proportions rest m

/-- `stratify_compartments`: iterate over a copy of the current compartment
names. -/
def Model.stratify_compartments (m : Model) (stratification_name : String)
    (strata_names : List String) (requested_proportions : Dict ℚ) :
    Except String Model :=
  stratify_compartments_aux stratification_name strata_names requested_proportions
    m.compartment_names m

/-- The body of the `add_adjusted_parameter` loop for one adjustment request:
when the request's parameter is a prefix of the unadjusted parameter, install
the requested per-stratum value (when one exists), record the overwrite flag
(when requested) and remember the stratified name; otherwise leave the
accumulator alone. -/
def add_adjusted_parameter_step (unadjusted_parameter stratification_name stratum : String)
    (req : String × AdjustmentRequest) (acc : Model × Option String) :
    Model × Option String :=
  if req.1.isPrefixOf unadjusted_parameter then
    let parameter_adjustment_name :=
      create_stratified_name unadjusted_parameter stratification_name stratum
    let m₁ := acc.1
    let m₂ :=
      match dictLookup req.2.adjustments stratum with
      | some value =>
        { m₁ with parameters := dictInsert m₁.parameters parameter_adjustment_name value }
      | none => m₁
    let m₃ :=
      if req.2.overwrite.contains stratum then
        { m₂ with overwrite_parameter :=
            m₂.overwrite_parameter ++ [parameter_adjustment_name] }
      else m₂
    (m₃, some parameter_adjustment_name)
  else acc

/-- The loop of `add_adjusted_parameter` over the adjustment requests,
carrying the model and the parameter name found so far. -/
def add_adjusted_parameter_loop (unadjusted_parameter stratification_name stratum : String) :
    AdjReqs → Model × Option String → Model × Option String
  | [], acc => acc
  | req :: rest, acc =>
    add_adjusted_parameter_loop unadjusted_parameter stratification_name stratum rest
      (add_adjusted_parameter_step unadjusted_parameter stratification_name stratum req acc)

/-- `add_adjusted_parameter`: scan every adjustment request whose parameter is
a prefix of the unadjusted parameter; install the requested per-stratum value
and record the overwrite flag; return the stratified parameter name, or none
when no request matched. -/
def Model.add_adjusted_parameter (m : Model) (unadjusted_parameter : String)
    (stratification_name : String) (stratum : String)
    (adjustment_requests : AdjReqs) : Model × Option String :=
  add_adjusted_parameter_loop unadjusted_parameter stratification_name stratum
    adjustment_requests (m, none)

/-- `sort_absent_parameter_request`: when only the destination is stratified
the source assigns a fresh `1 / |strata|` parameter but never binds the local
variable `parameter_name` in that branch, so the `return parameter_name` at
the end of the function raises UnboundLocalError (the freshly assigned
parameter value is torn down with the propagating exception); in every other
case the parent's parameter name is retained. -/
def Model.sort_absent_parameter_request (m : Model) (stratification_name : String)
    (strata_names : List String) (stratum : String)
    (stratify_origin stratify_dest : Bool) (flow_parameter : String) :
    Except String (Model × String) :=
  if ¬ stratify_origin ∧ stratify_dest then
    Except.error "UnboundLocalError: local variable parameter_name referenced before assignment"
  else
    Except.ok (m, flow_parameter)

/-- The per-stratum loop of `add_stratified_flows`: find the adjusted (or
default) parameter name, stratify whichever endpoints are being stratified
and append the new flow at the new generation. -/
def add_stratified_flows_strata (f : TransitionFlow) (stratification_name : String)
    (strata_names : List String) (stratify_origin stratify_dest : Bool)
    (adjustment_requests : AdjReqs) :
    List String → Model → Except String Model
  | [], m => Except.ok m
  | stratum :: rest, m =>
    let adjusted := m.add_adjusted_parameter f.parameter stratification_name stratum
      adjustment_requests
    match (match adjusted.2 with
           | some name => Except.ok (adjusted.1, name)
           | none => adjusted.1.sort_absent_parameter_request stratification_name
               strata_names stratum stratify_origin stratify_dest f.parameter) with
    | Except.error e => Except.error e
    | Except.ok (m₁, parameter_name) =>
      let from_compartment :=
        if stratify_origin then create_stratified_name f.origin stratification_name stratum
        else f.origin
      let to_compartment :=
        if stratify_dest then create_stratified_name f.toC stratification_name stratum
        else f.toC
      add_stratified_flows_strata f stratification_name strata_names
        stratify_origin stratify_dest adjustment_requests rest
        { m₁ with transition_flows := m₁.transition_flows ++
            [{ type := f.type, parameter := parameter_name,
               origin := from_compartment, toC := to_compartment,
               implement := m₁.strata.length }] }

/-- `add_stratified_flows`: a flow with neither endpoint in the stratify set
is left exactly as it is (the source's `if` has no else branch); otherwise
one new flow per stratum is appended at the new generation. -/
def Model.add_stratified_flows (m : Model) (f : TransitionFlow)
    (stratification_name : String) (strata_names : List String)
    (stratify_origin stratify_dest : Bool) (adjustment_requests : AdjReqs) :
    Except String Model :=
  if stratify_origin || stratify_dest then
    add_stratified_flows_strata f stratification_name strata_names
      stratify_origin stratify_dest adjustment_requests strata_names m
  else Except.ok m

/-- The loop of `stratify_transition_flows` over the snapshot of flows whose
`implement` tag is one less than the new number of stratifications. -/
def stratify_transition_flows_aux (stratification_name : String)
    (strata_names : List String) (adjustment_requests : AdjReqs) :
    List TransitionFlow → Model → Except String Model
  | [], m => Except.ok m
  | f :: rest, m =>
    match m.add_stratified_flows f stratification_name strata_names
            (m.compartment_types_to_stratify.contains (find_stem f.origin))
            (m.compartment_types_to_stratify.contains (find_stem f.toC))
            adjustment_requests with
    | Except.error e => Except.error e
    | Except.ok m₁ =>
      stratify_transition_flows_aux stratification_name strata_names
        adjustment_requests rest m₁

/-- `stratify_transition_flows`: replicate or retain each flow of the previous
generation depending on whether its endpoints' stems are being stratified. -/
def Model.stratify_transition_flows (m : Model) (stratification_name : String)
    (strata_names : List String) (adjustment_requests : AdjReqs) :
    Except String Model :=
  stratify_transition_flows_aux stratification_name strata_names adjustment_requests
    (m.transition_flows.filter (fun f => f.implement = m.strata.length - 1)) m

/-- The entry-fraction dict built by `stratify_entry_flows` when the entry
compartment is being stratified.  For age stratification the stratum "0"
receives fraction 1 and every other stratum 0.  The source's third branch
tests `stratum in requested_proportions["adjustments"]`; the values of the
proportion dict are numbers, so reaching it (i.e. having a stratum literally
named "adjustments") is a Python TypeError, and otherwise every stratum falls
through to the equal share `1 / |strata|`. -/
def build_entry_fractions (stratification_name : String)
    (strata_names : List String) (requested_proportions : Dict ℚ) :
    List String → Except String (Dict ℚ)
  | [] => Except.ok []
  | stratum :: rest =>
    let entry_fraction_name :=
      create_stratified_name "entry_fraction" stratification_name stratum
    if stratification_name = "age" ∧ stratum = "0" then
      match build_entry_fractions stratification_name strata_names requested_proportions rest with
      | Except.error e => Except.error e
      | Except.ok d => Except.ok ((entry_fraction_name, 1) :: d)
    else if stratification_name = "age" then
      match build_entry_fractions stratification_name strata_names requested_proportions rest with
      | Except.error e => Except.error e
      | Except.ok d => Except.ok ((entry_fraction_name, 0) :: d)
    else if (dictLookup requested_proportions "adjustments").isSome then
      Except.error "TypeError: argument of type number is not iterable"
    else
      match build_entry_fractions stratification_name strata_names requested_proportions rest with
      | Except.error e => Except.error e
      | Except.ok d =>
        Except.ok ((entry_fraction_name, 1 / (strata_names.length : ℚ)) :: d)

/-- `stratify_entry_flows`: when the entry compartment's stem is being
stratified, synthesize one entry-fraction parameter per stratum and update
the parameter dict with their normalised values. -/
def Model.stratify_entry_flows (m : Model) (stratification_name : String)
    (strata_names : List String) (requested_proportions : Dict ℚ) :
    Except String Model :=
  match (if m.compartment_types_to_stratify.contains m.entry_compartment then
          build_entry_fractions stratification_name strata_names
            requested_proportions strata_names
         else Except.ok []) with
  | Except.error e => Except.error e
  | Except.ok entry_fractions =>
    match normalise_dict entry_fractions with
    | Except.error e => Except.error e
    | Except.ok normalised =>
      Except.ok { m with parameters := dictUpdate m.parameters normalised }

/-- The per-stratum loop of `stratify_death_flows` for one death flow of the
previous generation. -/
def add_stratified_death_flow_strata (f : DeathFlow) (stratification_name : String)
    (adjustment_requests : AdjReqs) : List String → Model → Model
  | [], m => m
  | stratum :: rest, m =>
    let adjusted := m.add_adjusted_parameter f.parameter stratification_name stratum
      adjustment_requests
    let parameter_name := adjusted.2.getD f.parameter
    let m₁ := adjusted.1
    add_stratified_death_flow_strata f stratification_name adjustment_requests rest
      { m₁ with death_flows := m₁.death_flows ++
          [{ type := f.type, parameter := parameter_name,
             origin := create_stratified_name f.origin stratification_name stratum,
             implement := m₁.strata.length }] }

/-- The loop of `stratify_death_flows` over the snapshot of death flows of the
previous generation. -/
def stratify_death_flows_aux (stratification_name : String)
    (strata_names : List String) (adjustment_requests : AdjReqs) :
    List DeathFlow → Model → Model
  | [], m => m
  | f :: rest, m =>
    stratify_death_flows_aux stratification_name strata_names adjustment_requests rest
      (add_stratified_death_flow_strata f stratification_name adjustment_requests
        strata_names m)

/-- `stratify_death_flows`: replicate each death flow of the previous
generation into one flow per stratum at the new generation. -/
def Model.stratify_death_flows (m : Model) (stratification_name : String)
    (strata_names : List String) (adjustment_requests : AdjReqs) : Model :=
  stratify_death_flows_aux stratification_name strata_names adjustment_requests
    (m.death_flows.filter (fun f => f.implement = m.strata.length - 1)) m

/-- The inner loop of `stratify_universal_death_rate` over the strata for one
matching parameter. -/
def stratify_universal_strata (parameter stratification_name : String)
    (adjustment_requests : AdjReqs) : List String → Model → Model
  | [], m => m
  | stratum :: rest, m =>
    stratify_universal_strata parameter stratification_name adjustment_requests rest
      (m.add_adjusted_parameter parameter stratification_name stratum
        adjustment_requests).1

/-- The outer loop of `stratify_universal_death_rate` over the snapshot of
matching parameter names. -/
def stratify_universal_params (stratification_name : String)
    (strata_names : List String) (adjustment_requests : AdjReqs) :
    List String → Model → Model
  | [], m => m
  | parameter :: rest, m =>
    stratify_universal_params stratification_name strata_names adjustment_requests rest
      (stratify_universal_strata parameter stratification_name adjustment_requests
        strata_names m)

/-- `stratify_universal_death_rate`: give every parameter whose stem is
`universal_death_rate` the hierarchical adjustment treatment for each
stratum (over a snapshot of the parameter keys). -/
def Model.stratify_universal_death_rate (m : Model) (stratification_name : String)
    (strata_names : List String) (adjustment_requests : AdjReqs) : Model :=
  stratify_universal_params stratification_name strata_names adjustment_requests
    ((dictKeys m.parameters).filter
      (fun parameter => find_stem parameter = "universal_death_rate")) m

/-- `set_ageing_rates` parameter names, in order, for a breakpoint list. -/
def ageing_parameter_names : List ℚ → List String
  | a :: b :: rest =>
    ("ageing" ++ toString a ++ "to" ++ toString b) :: ageing_parameter_names (b :: rest)
  | _ => []

/-- The ageing flows inserted for one consecutive breakpoint pair: one flow
per existing compartment, from its `a`-stratum to its `b`-stratum, at the new
generation. -/
def ageing_flows_for_pair (ageing_parameter_name : String) (start_age end_age : ℚ)
    (implement : Nat) : List String → List TransitionFlow
  | [] => []
  | compartment :: rest =>
    { type := "standard_flows", parameter := ageing_parameter_name,
      origin := create_stratified_name compartment "age" (toString start_age),
      toC := create_stratified_name compartment "age" (toString end_age),
      implement := implement } ::
      ageing_flows_for_pair ageing_parameter_name start_age end_age implement rest

/-- The loop of `set_ageing_rates` over consecutive breakpoint pairs: install
the `1 / (end - start)` rate parameter and append one ageing flow per
compartment.  Integer breakpoints print the same way under Python `str` and
`toString ℚ`. -/
def set_ageing_rates_aux : List ℚ → Model → Model
  | start_age :: end_age :: rest, m =>
    let ageing_parameter_name := "ageing" ++ toString start_age ++ "to" ++ toString end_age
    let ageing_rate : ℚ := 1 / (end_age - start_age)
    set_ageing_rates_aux (end_age :: rest)
      { m with
        parameters := dictInsert m.parameters ageing_parameter_name ageing_rate,
        transition_flows := m.transition_flows ++
          ageing_flows_for_pair ageing_parameter_name start_age end_age
            m.strata.length m.compartment_names }
  | _, m => m

/-- `set_ageing_rates`: intercompartmental ageing flows from each age stratum
to the next. -/
def Model.set_ageing_rates (m : Model) (strata_names : List ℚ) : Model :=
  set_ageing_rates_aux strata_names m

/-- `StratifiedModel.stratify` for a non-"age" stratification with the strata
given as a list of labels (`find_strata_names_from_input` returns such a list
unchanged; its empty-list check compares a list against 0 and so never
fires).  Steps in source order: record the stratification name, check the
compartment request and the adjustment requests, tidy the starting
proportions, stratify compartments, transition flows, entry flows, death
flows (when any exist) and the universal death rate.  The age-specific
branch (`check_age_stratification` / `set_ageing_rates`) and the
heterogeneous-infectiousness step (a no-op for the default empty request) are
embedded separately. -/
def Model.stratify (m : Model) (stratification_name : String)
    (strata_names : List String) (compartment_types_to_stratify : List String)
    (adjustment_requests : AdjReqs) (requested_proportions : Dict ℚ) :
    Except String Model :=
  let m₀ := { m with strata := m.strata ++ [stratification_name] }
  match m₀.check_compartment_request compartment_types_to_stratify with
  | Except.error e => Except.error e
  | Except.ok m₁ =>
    match check_parameter_adjustment_requests adjustment_requests strata_names with
    | Except.error e => Except.error e
    | Except.ok checked_requests =>
      match tidy_starting_proportions strata_names requested_proportions with
      | Except.error e => Except.error e
      | Except.ok tidied_proportions =>
        match m₁.stratify_compartments stratification_name strata_names
                tidied_proportions with
        | Except.error e => Except.error e
        | Except.ok m₂ =>
          match m₂.stratify_transition_flows stratification_name strata_names
                  checked_requests with
          | Except.error e => Except.error e
          | Except.ok m₃ =>
            match m₃.stratify_entry_flows stratification_name strata_names
                    tidied_proportions with
            | Except.error e => Except.error e
            | Except.ok m₄ =>
              let m₅ :=
                if m₄.death_flows.length > 0 then
                  m₄.stratify_death_flows stratification_name strata_names
                    checked_requests
                else m₄
              Except.ok (m₅.stratify_universal_death_rate stratification_name
                strata_names checked_requests)

/-
  StratifiedModel.__init__ delegation (source lines 474-486)
-/

/-- The optional keyword arguments `StratifiedModel.__init__` forwards to
`EpiModel.__init__`. -/
structure EpiModelInitArgs where
  initial_conditions_to_total : Bool
  infectious_compartment : String
  birth_approach : String
  report : Bool
  reporting_sigfigs : Int
  entry_compartment : String
  starting_population : Int
  default_starting_compartment : String
  equilibrium_stopping_tolerance : Option ℚ
deriving DecidableEq, Repr

/-- The argument values `StratifiedModel.__init__` actually passes to
`EpiModel.__init__`: every keyword argument is hard-coded on the delegation
call, so the caller-supplied values bound by the `StratifiedModel` signature
are discarded. -/
def stratified_model_init_delegation
    (initial_conditions_to_total : Bool) (infectious_compartment : String)
    (birth_approach : String) (report : Bool) (reporting_sigfigs : Int)
    (entry_compartment : String) (starting_population : Int)
    (default_starting_compartment : String)
    (equilibrium_stopping_tolerance : Option ℚ) : EpiModelInitArgs :=
  { initial_conditions_to_total := true,
    infectious_compartment := "infectious",
    birth_approach := "no_birth",
    report := false,
    reporting_sigfigs := 4,
    entry_compartment := "susceptible",
    starting_population := 1,
    default_starting_compartment := "",
    equilibrium_stopping_tolerance := none }

/-
  concrete model instances used by witnesses and counterexamples
-/

/-- A model with every collection empty, the base for the concrete instances
below (defaults `entry_compartment = "susceptible"`,
`birth_approach = "no_birth"` as installed by `StratifiedModel.__init__`). -/
def emptyModel : Model :=
  { compartment_types := [], compartment_names := [], compartment_values := [],
    removed_compartments := [], transition_flows := [], death_flows := [],
    parameters := [], time_variants := [], tracked_quantities := [],
    strata := [], overwrite_parameter := [], compartment_types_to_stratify := [],
    parameter_components := [], entry_compartment := "susceptible",
    birth_approach := "no_birth" }

/-- A three-compartment unstratified model with one standard flow from "a" to
"b"; "c" is untouched by the flow. -/
def mC1 : Model :=
  { emptyModel with
    compartment_types := ["a", "b", "c"],
    compartment_names := ["a", "b", "c"],
    compartment_values := [1, 1, 1],
    transition_flows :=
      [{ type := "standard_flows", parameter := "p", origin := "a", toC := "b", implement := 0 }],
    parameters := [("p", 2), ("universal_death_rate", 0), ("entry_fractions", 1)] }

/-- The single transition flow of `mC1`. -/
def flowC1 : TransitionFlow :=
  { type := "standard_flows", parameter := "p", origin := "a", toC := "b", implement := 0 }

/-- The model after stratifying only compartment "c" of `mC1` into two
strata (the C1 counterexample proves this is what that call returns):
compartment "c" is split in half, the flow table and its only row are
untouched, and the stratification depth is now 1. -/
def mC1_post : Model :=
  { mC1 with
    compartment_names := ["a", "b", "cXtest_u", "cXtest_v"],
    compartment_values := [1, 1, 1 * (1/2), 1 * (1/2)],
    removed_compartments := ["c"],
    strata := ["test"],
    compartment_types_to_stratify := ["c"] }

/-- The state of `mC1` at the moment `stratify_transition_flows` runs during
that stratification: the new name is on the strata list and the stratify set
has been installed. -/
def mC1_mid : Model :=
  { mC1 with strata := ["test"], compartment_types_to_stratify := ["c"] }

/-- A one-compartment model holding a population of 7, to be stratified. -/
def mC2w : Model :=
  { emptyModel with
    compartment_types := ["c1"],
    compartment_names := ["c1"],
    compartment_values := [7] }

/-- A model whose parameter "recovery" is the constant 2 and whose stratified
parameter "recoveryXhiv_positive" is a constant overwrite of value 5. -/
def mC3 : Model :=
  { emptyModel with
    parameters := [("recovery", 2), ("recoveryXhiv_positive", 5)],
    overwrite_parameter := ["recoveryXhiv_positive"] }

/-- `mC3` with the components of the stratified parameter installed (the
first conjunct of the C3 theorem checks that this is exactly what
`find_parameter_components` computes, as `prepare_stratified_parameter_calculations`
would cache before integration). -/
def mC3_prepared : Model :=
  { mC3 with parameter_components :=
      [("recoveryXhiv_positive",
        { time_variants := [], constants := ["recoveryXhiv_positive", "recovery"],
          constant_value := 10 })] }

/-- A two-compartment model with one standard flow from "a" to "b", whose
destination (and only the destination) is about to be stratified. -/
def mC4 : Model :=
  { emptyModel with
    compartment_types := ["a", "b"],
    compartment_names := ["a", "b"],
    compartment_values := [1, 1],
    transition_flows :=
      [{ type := "standard_flows", parameter := "p", origin := "a", toC := "b", implement := 0 }],
    parameters := [("p", 1)] }

/-- A model with one compartment, for exercising `set_ageing_rates`. -/
def mC6w : Model :=
  { emptyModel with compartment_names := ["susceptible"] }

/-- A model whose entry compartment is in the stratify set. -/
def mC7w : Model :=
  { emptyModel with
    compartment_types := ["susceptible"],
    compartment_names := ["susceptible"],
    compartment_values := [1],
    compartment_types_to_stratify := ["susceptible"] }

/-- A two-compartment model with a single active standard flow at rate 2 from
"a" to "b", no death flows, a zero universal death rate and no births. -/
def mC8 : Model :=
  { emptyModel with
    compartment_types := ["a", "b"],
    compartment_names := ["a", "b"],
    compartment_values := [3, 4],
    transition_flows :=
      [{ type := "standard_flows", parameter := "p", origin := "a", toC := "b", implement := 0 }],
    parameter_components :=
      [("p", { time_variants := [], constants := ["p"], constant_value := 2 }),
       ("universal_death_rate", { time_variants := [], constants := [], constant_value := 0 })],
    entry_compartment := "a" }

/-- The empty model extended with a zero universal-death-rate component (as
`add_default_quantities` and preparation install for an unparameterised
model): the degenerate conservation witness. -/
def mC8w : Model :=
  { emptyModel with
    parameter_components :=
      [("universal_death_rate",
        { time_variants := [], constants := [], constant_value := 0 })] }

/-- `mC8` with the flow made frequency-dependent and a tracked total
population of zero. -/
def mC9 : Model :=
  { mC8 with
    transition_flows :=
      [{ type := "infection_frequency", parameter := "p", origin := "a", toC := "b", implement := 0 }],
    tracked_quantities := [("infectious_population", 1), ("total_population", 0)] }

/-
  basic lemmas about the dict and list helpers
-/

theorem dictLookup_eq_none_iff {β : Type} (d : Dict β) (key : String) :
    dictLookup d key = none ↔ key ∉ dictKeys d := by
  induction d with
  | nil => simp [dictLookup, dictKeys]
  | cons kv rest ih =>
    obtain ⟨k, v⟩ := kv
    by_cases hk : k = key
    · subst hk
      simp [dictLookup, dictKeys]
    · simp [dictLookup, dictKeys, hk, ih, Ne.symm hk]

theorem dictLookup_isSome_iff {β : Type} (d : Dict β) (key : String) :
    (dictLookup d key).isSome = true ↔ key ∈ dictKeys d := by
  rw [Option.isSome_iff_ne_none]
  constructor
  · intro h
    by_contra hmem
    exact h ((dictLookup_eq_none_iff d key).2 hmem)
  · intro hmem h
    exact ((dictLookup_eq_none_iff d key).1 h) hmem

theorem dictLookup_append {β : Type} (d e : Dict β) (key : String) :
    dictLookup (d ++ e) key =
      match dictLookup d key with
      | some v => some v
      | none => dictLookup e key := by
  induction d with
  | nil => simp [dictLookup]
  | cons kv rest ih =>
    by_cases hk : kv.1 = key
    · simp [dictLookup, hk]
    · simp [dictLookup, hk, ih]

theorem dictLookup_append_of_none {β : Type} {d : Dict β} {key : String}
    (h : dictLookup d key = none) (e : Dict β) :
    dictLookup (d ++ e) key = dictLookup e key := by
  rw [dictLookup_append, h]

theorem dictLookup_append_of_some {β : Type} {d : Dict β} {key : String} {v : β}
    (h : dictLookup d key = some v) (e : Dict β) :
    dictLookup (d ++ e) key = some v := by
  rw [dictLookup_append, h]

theorem dictLookup_map_values {β γ : Type} (d : Dict β) (f : β → γ) (key : String) :
    dictLookup (d.map (fun kv => (kv.1, f kv.2))) key = (dictLookup d key).map f := by
  induction d with
  | nil => simp [dictLookup]
  | cons kv rest ih =>
    by_cases hk : kv.1 = key
    · simp [dictLookup, hk]
    · simp [dictLookup, hk, ih]

theorem dictKeys_map_values {β γ : Type} (d : Dict β) (f : β → γ) :
    dictKeys (d.map (fun kv => (kv.1, f kv.2))) = dictKeys d := by
  induction d with
  | nil => rfl
  | cons kv rest ih =>
    show kv.1 :: dictKeys (rest.map (fun kv => (kv.1, f kv.2))) = kv.1 :: dictKeys rest
    rw [ih]

theorem dictLookup_insert_self {β : Type} (d : Dict β) (key : String) (v : β) :
    dictLookup (dictInsert d key v) key = some v := by
  induction d with
  | nil => simp [dictInsert, dictLookup]
  | cons kv rest ih =>
    by_cases hk : kv.1 = key
    · simp [dictInsert, hk, dictLookup]
    · simp [dictInsert, hk, dictLookup, ih]

theorem dictLookup_insert_other {β : Type} (d : Dict β) {key other : String} (v : β)
    (h : key ≠ other) : dictLookup (dictInsert d key v) other = dictLookup d other := by
  induction d with
  | nil => simp [dictInsert, dictLookup, h]
  | cons kv rest ih =>
    by_cases hk : kv.1 = key
    · simp [dictInsert, hk, dictLookup, h]
    · simp only [dictInsert, hk, if_false]
      by_cases hko : kv.1 = other
      · simp [dictLookup, hko]
      · simp [dictLookup, hko, ih]

theorem pyIndex_lt {names : List String} {name : String} {i : Nat}
    (h : pyIndex names name = Except.ok i) : i < names.length := by
  induction names generalizing i with
  | nil => simp [pyIndex] at h
  | cons n rest ih =>
    by_cases hn : n = name
    · simp [pyIndex, hn] at h
      simp only [List.length_cons]
      omega
    · rw [show pyIndex (n :: rest) name =
          (match pyIndex rest name with
           | Except.ok i => Except.ok (i + 1)
           | Except.error e => Except.error e) by simp [pyIndex, hn]] at h
      cases hrec : pyIndex rest name with
      | error e => rw [hrec] at h; simp at h
      | ok j =>
        rw [hrec] at h
        simp at h
        have hj := ih hrec
        simp only [List.length_cons]
        omega

theorem pyIndex_append {names : List String} {name : String} {i : Nat}
    (h : pyIndex names name = Except.ok i) (ext : List String) :
    pyIndex (names ++ ext) name = Except.ok i := by
  induction names generalizing i with
  | nil => simp [pyIndex] at h
  | cons n rest ih =>
    by_cases hn : n = name
    · simp [pyIndex, hn] at h ⊢
      omega
    · rw [show pyIndex (n :: rest) name =
          (match pyIndex rest name with
           | Except.ok i => Except.ok (i + 1)
           | Except.error e => Except.error e) by simp [pyIndex, hn]] at h
      rw [show pyIndex ((n :: rest) ++ ext) name =
          (match pyIndex (rest ++ ext) name with
           | Except.ok i => Except.ok (i + 1)
           | Except.error e => Except.error e) by simp [pyIndex, hn]]
      cases hrec : pyIndex rest name with
      | error e => rw [hrec] at h; simp at h
      | ok j =>
        rw [hrec] at h
        rw [ih hrec]
        exact h

theorem pyIndex_mem {names : List String} {name : String} (h : name ∈ names) :
    ∃ i, pyIndex names name = Except.ok i ∧ i < names.length := by
  induction names with
  | nil => simp at h
  | cons n rest ih =>
    by_cases hn : n = name
    · exact ⟨0, by simp [pyIndex, hn], by simp⟩
    · have hmem : name ∈ rest := by
        cases h with
        | head => exact absurd rfl hn
        | tail _ hr => exact hr
      obtain ⟨i, hi, hlt⟩ := ih hmem
      refine ⟨i + 1, ?_, ?_⟩
      · simp [pyIndex, hn, hi]
      · simp only [List.length_cons]; omega

theorem increment_compartment_length (l : List ℚ) (i : Nat) (x : ℚ) :
    (increment_compartment l i x).length = l.length := by
  simp [increment_compartment]

theorem sum_increment_compartment {l : List ℚ} {i : Nat} (x : ℚ) (h : i < l.length) :
    (increment_compartment l i x).sum = l.sum + x := by
  induction l generalizing i with
  | nil => simp at h
  | cons a rest ih =>
    cases i with
    | zero =>
      simp [increment_compartment, List.set]
      ring
    | succ n =>
      have hn : n < rest.length := by simpa using h
      have := ih (i := n) hn
      simp only [increment_compartment, List.set, List.getD_cons_succ, List.sum_cons] at this ⊢
      rw [this]
      ring

/-
  lemmas about proportion tidying and normalisation (towards C2 and C7)
-/

theorem fill_missing_proportions_eq (equal_share : ℚ) (l : List String)
    (acc : Dict ℚ) (hnodup : l.Nodup) :
    fill_missing_proportions equal_share l acc =
      acc ++ (l.filter (fun s => (dictLookup acc s).isNone)).map (fun s => (s, equal_share)) := by
  induction l generalizing acc with
  | nil => simp [fill_missing_proportions]
  | cons s rest ih =>
    have hs : s ∉ rest := (List.nodup_cons.1 hnodup).1
    have hrest : rest.Nodup := (List.nodup_cons.1 hnodup).2
    cases hlook : dictLookup acc s with
    | some v =>
      rw [show fill_missing_proportions equal_share (s :: rest) acc =
            fill_missing_proportions equal_share rest acc by
          simp [fill_missing_proportions, hlook]]
      rw [ih acc hrest]
      have : (s :: rest).filter (fun x => (dictLookup acc x).isNone) =
          rest.filter (fun x => (dictLookup acc x).isNone) := by
        simp [List.filter_cons, hlook]
      rw [this]
    | none =>
      rw [show fill_missing_proportions equal_share (s :: rest) acc =
            fill_missing_proportions equal_share rest (acc ++ [(s, equal_share)]) by
          simp [fill_missing_proportions, hlook]]
      rw [ih (acc ++ [(s, equal_share)]) hrest]
      have hfilter : rest.filter (fun x => (dictLookup (acc ++ [(s, equal_share)]) x).isNone) =
          rest.filter (fun x => (dictLookup acc x).isNone) := by
        apply List.filter_congr
        intro x hx
        have hxs : s ≠ x := fun he => hs (he ▸ hx)
        rw [dictLookup_append]
        cases hacc : dictLookup acc x with
        | some v => simp
        | none => simp [dictLookup, hxs]
      rw [hfilter]
      have hcons : (s :: rest).filter (fun x => (dictLookup acc x).isNone) =
          s :: rest.filter (fun x => (dictLookup acc x).isNone) := by
        simp [List.filter_cons, hlook]
      rw [hcons]
      simp

theorem dictKeys_append {β : Type} (d e : Dict β) :
    dictKeys (d ++ e) = dictKeys d ++ dictKeys e := by
  simp [dictKeys]

/-- Summing the looked-up values over the key list of a dict with distinct
keys gives the sum of all values. -/
theorem sum_lookup_over_keys (d : Dict ℚ) (hnodup : (dictKeys d).Nodup) :
    ((dictKeys d).map (fun s => (dictLookup d s).getD 0)).sum = (dictValues d).sum := by
  induction d with
  | nil => simp [dictKeys, dictValues]
  | cons kv rest ih =>
    obtain ⟨k, v⟩ := kv
    have hk : k ∉ dictKeys rest := by
      have := List.nodup_cons.1 hnodup
      simpa [dictKeys] using this.1
    have hrest : (dictKeys rest).Nodup := by
      have := List.nodup_cons.1 hnodup
      simpa [dictKeys] using this.2
    have hhead : dictLookup ((k, v) :: rest) k = some v := by simp [dictLookup]
    have htail : ∀ s ∈ dictKeys rest,
        (dictLookup ((k, v) :: rest) s).getD 0 = (dictLookup rest s).getD 0 := by
      intro s hsmem
      have : k ≠ s := fun he => hk (he ▸ hsmem)
      simp [dictLookup, this]
    show ((k :: dictKeys rest).map (fun s => (dictLookup ((k, v) :: rest) s).getD 0)).sum =
      (v :: dictValues rest).sum
    rw [List.map_cons, List.sum_cons, hhead, List.sum_cons]
    rw [List.map_congr_left htail, ih hrest]
    rfl

/-- Summing the looked-up values over any permutation of the key list. -/
theorem sum_lookup_over_perm (d : Dict ℚ) (idx : List String)
    (hnodup : (dictKeys d).Nodup) (hperm : idx.Perm (dictKeys d)) :
    (idx.map (fun s => (dictLookup d s).getD 0)).sum = (dictValues d).sum := by
  rw [(hperm.map (fun s => (dictLookup d s).getD 0)).sum_eq]
  exact sum_lookup_over_keys d hnodup

/-- After filling, the keys of the tidied proportion dict are a permutation of
the strata, provided the requested keys are distinct strata. -/
theorem fill_missing_proportions_keys_perm (equal_share : ℚ)
    (strata_names : List String) (requested : Dict ℚ)
    (hS : strata_names.Nodup) (hR : (dictKeys requested).Nodup)
    (hsub : ∀ k ∈ dictKeys requested, k ∈ strata_names) :
    (dictKeys (fill_missing_proportions equal_share strata_names requested)).Perm
      strata_names ∧
    (dictKeys (fill_missing_proportions equal_share strata_names requested)).Nodup := by
  rw [fill_missing_proportions_eq equal_share strata_names requested hS]
  rw [dictKeys_append]
  have hmapkeys : dictKeys ((strata_names.filter
      (fun s => (dictLookup requested s).isNone)).map (fun s => (s, equal_share))) =
      strata_names.filter (fun s => (dictLookup requested s).isNone) := by
    show List.map Prod.fst _ = _
    rw [List.map_map]
    have hid : ∀ x ∈ strata_names.filter (fun s => (dictLookup requested s).isNone),
        (Prod.fst ∘ fun s => (s, equal_share)) x = id x := fun x hx => rfl
    rw [List.map_congr_left hid, List.map_id]
  rw [hmapkeys]
  have hnone_iff : ∀ s, (dictLookup requested s).isNone = true ↔ s ∉ dictKeys requested := by
    intro s
    rw [Option.isNone_iff_eq_none]
    exact dictLookup_eq_none_iff requested s
  -- the requested keys are a permutation of the strata they occupy
  have hperm₁ : (strata_names.filter (fun s => (dictLookup requested s).isSome)).Perm
      (dictKeys requested) := by
    apply List.perm_of_nodup_nodup_toFinset_eq (hS.filter _) hR
    ext x
    simp only [List.mem_toFinset, List.mem_filter]
    constructor
    · rintro ⟨hmem, hsome⟩
      exact (dictLookup_isSome_iff requested x).1 hsome
    · intro hmem
      exact ⟨hsub x hmem, (dictLookup_isSome_iff requested x).2 hmem⟩
  constructor
  · have step₁ : (dictKeys requested ++
        strata_names.filter (fun s => (dictLookup requested s).isNone)).Perm
        (strata_names.filter (fun s => (dictLookup requested s).isSome) ++
          strata_names.filter (fun s => (dictLookup requested s).isNone)) :=
      (hperm₁.symm).append_right _
    have step₂ : (strata_names.filter (fun s => (dictLookup requested s).isSome) ++
        strata_names.filter (fun s => (dictLookup requested s).isNone)).Perm strata_names := by
      have hfap := List.filter_append_perm (fun s => (dictLookup requested s).isSome) strata_names
      have heq : (fun s => !(dictLookup requested s).isSome) =
          (fun s => (dictLookup requested s).isNone) := by
        funext s
        cases dictLookup requested s <;> rfl
      rw [heq] at hfap
      exact hfap
    exact step₁.trans step₂
  · apply List.Nodup.append hR (hS.filter _)
    intro x hx₁ hx₂
    have := (hnone_iff x).1 ((List.mem_filter.1 hx₂).2)
    exact this hx₁

theorem normalise_dict_of_sum_ne_zero {d : Dict ℚ} (h : (dictValues d).sum ≠ 0) :
    normalise_dict d =
      Except.ok (d.map (fun kv => (kv.1, kv.2 / (dictValues d).sum))) := by
  simp [normalise_dict, h]

/-- Successful tidying forces a non-zero filled total and exposes the
normalised dict. -/
theorem tidy_ok_characterisation {strata_names : List String} {requested props : Dict ℚ}
    (hne : strata_names ≠ [])
    (h : tidy_starting_proportions strata_names requested = Except.ok props) :
    (dictValues (fill_missing_proportions (1 / (strata_names.length : ℚ))
        strata_names requested)).sum ≠ 0 ∧
    props = (fill_missing_proportions (1 / (strata_names.length : ℚ))
        strata_names requested).map
      (fun kv => (kv.1, kv.2 / (dictValues (fill_missing_proportions
        (1 / (strata_names.length : ℚ)) strata_names requested)).sum)) := by
  set filled := fill_missing_proportions (1 / (strata_names.length : ℚ))
    strata_names requested with hfilled
  have hfilled_ne : filled ≠ [] := by
    obtain ⟨s, rest, hsr⟩ : ∃ s rest, strata_names = s :: rest := by
      cases strata_names with
      | nil => exact absurd rfl hne
      | cons s rest => exact ⟨s, rest, rfl⟩
    rw [hfilled, hsr]
    show fill_missing_proportions _ (s :: rest) requested ≠ []
    cases hlook : dictLookup requested s with
    | some v =>
      have hreq_ne : requested ≠ [] := by
        intro hempty
        rw [hempty] at hlook
        simp [dictLookup] at hlook
      intro hcontra
      -- the filled dict extends the requested dict, so it cannot be empty
      have : dictLookup (fill_missing_proportions (1 / ((s :: rest).length : ℚ))
          (s :: rest) requested) s = some v := by
        clear hcontra
        generalize hq : (1 : ℚ) / ((s :: rest).length : ℚ) = q
        have main : ∀ (l : List String) (acc : Dict ℚ), dictLookup acc s = some v →
            dictLookup (fill_missing_proportions q l acc) s = some v := by
          intro l
          induction l with
          | nil => intro acc hacc; simpa [fill_missing_proportions] using hacc
          | cons x xs ih =>
            intro acc hacc
            cases hlx : dictLookup acc x with
            | some w =>
              rw [show fill_missing_proportions q (x :: xs) acc =
                  fill_missing_proportions q xs acc by
                simp [fill_missing_proportions, hlx]]
              exact ih acc hacc
            | none =>
              rw [show fill_missing_proportions q (x :: xs) acc =
                  fill_missing_proportions q xs (acc ++ [(x, q)]) by
                simp [fill_missing_proportions, hlx]]
              exact ih _ (dictLookup_append_of_some hacc _)
        exact main (s :: rest) requested hlook
      rw [hcontra] at this
      simp [dictLookup] at this
    | none =>
      intro hcontra
      have : dictLookup (fill_missing_proportions (1 / ((s :: rest).length : ℚ))
          (s :: rest) requested) s =
          some (1 / ((s :: rest).length : ℚ)) := by
        generalize hq : (1 : ℚ) / ((s :: rest).length : ℚ) = q
        rw [show fill_missing_proportions q (s :: rest) requested =
            fill_missing_proportions q rest (requested ++ [(s, q)]) by
          simp [fill_missing_proportions, hlook]]
        have main : ∀ (l : List String) (acc : Dict ℚ), dictLookup acc s = some q →
            dictLookup (fill_missing_proportions q l acc) s = some q := by
          intro l
          induction l with
          | nil => intro acc hacc; simpa [fill_missing_proportions] using hacc
          | cons x xs ih =>
            intro acc hacc
            cases hlx : dictLookup acc x with
            | some w =>
              rw [show fill_missing_proportions q (x :: xs) acc =
                  fill_missing_proportions q xs acc by
                simp [fill_missing_proportions, hlx]]
              exact ih acc hacc
            | none =>
              rw [show fill_missing_proportions q (x :: xs) acc =
                  fill_missing_proportions q xs (acc ++ [(x, q)]) by
                simp [fill_missing_proportions, hlx]]
              exact ih _ (dictLookup_append_of_some hacc _)
        apply main
        exact dictLookup_append_of_none hlook _ |>.trans (by simp [dictLookup])
      rw [hcontra] at this
      simp [dictLookup] at this
  unfold tidy_starting_proportions at h
  rw [← hfilled] at h
  unfold normalise_dict at h
  by_cases hzero : (dictValues filled).sum = 0
  · rw [if_pos ⟨hfilled_ne, hzero⟩] at h
    exact absurd h (by simp)
  · rw [if_neg (by intro hand; exact hzero hand.2)] at h
    refine ⟨hzero, ?_⟩
    have := h
    simp only [Except.ok.injEq] at this
    exact this.symm

/-- The proportions returned by a successful `tidy_starting_proportions` are
defined on every stratum and sum to 1 over the strata. -/
theorem tidy_proportions_sum_one {strata_names : List String} {requested props : Dict ℚ}
    (hS : strata_names.Nodup) (hR : (dictKeys requested).Nodup)
    (hsub : ∀ k ∈ dictKeys requested, k ∈ strata_names) (hne : strata_names ≠ [])
    (h : tidy_starting_proportions strata_names requested = Except.ok props) :
    (strata_names.map (fun s => (dictLookup props s).getD 0)).sum = 1 ∧
    ∀ s ∈ strata_names, (dictLookup props s).isSome = true := by
  obtain ⟨hT, hprops⟩ := tidy_ok_characterisation hne h
  set filled := fill_missing_proportions (1 / (strata_names.length : ℚ))
    strata_names requested with hfilled
  set T := (dictValues filled).sum with hTdef
  obtain ⟨hperm, hnodup⟩ := fill_missing_proportions_keys_perm
    (1 / (strata_names.length : ℚ)) strata_names requested hS hR hsub
  rw [← hfilled] at hperm hnodup
  have hlookup_props : ∀ s, dictLookup props s = (dictLookup filled s).map (fun v => v / T) := by
    intro s
    rw [hprops]
    exact dictLookup_map_values filled (fun v => v / T) s
  have hgetD : ∀ s, (dictLookup props s).getD 0 = (dictLookup filled s).getD 0 / T := by
    intro s
    rw [hlookup_props s]
    cases dictLookup filled s with
    | none => simp
    | some v => simp
  constructor
  · have hmap : strata_names.map (fun s => (dictLookup props s).getD 0) =
        strata_names.map (fun s => (dictLookup filled s).getD 0 * T⁻¹) := by
      apply List.map_congr_left
      intro s hs
      rw [hgetD s, div_eq_mul_inv]
    rw [hmap, List.sum_map_mul_right, sum_lookup_over_perm filled strata_names hnodup hperm.symm]
    rw [← hTdef]
    exact mul_inv_cancel₀ hT
  · intro s hs
    rw [hlookup_props s]
    have hsmem : s ∈ dictKeys filled := (hperm.symm.mem_iff).1 hs
    have := (dictLookup_isSome_iff filled s).2 hsmem
    cases hcase : dictLookup filled s with
    | none => rw [hcase] at this; simp at this
    | some v => simp

/-- Unfolding of `add_stratified_children` over a list of strata whose
proportions all exist: the children are appended in order, each valued at the
(stable) parent value times its stratum proportion. -/
theorem add_stratified_children_spec (stratification_name : String)
    (props : Dict ℚ) (compartment : String) (l : List String) :
    ∀ (m : Model) (i : Nat),
      pyIndex m.compartment_names compartment = Except.ok i →
      i < m.compartment_values.length →
      (∀ s ∈ l, (dictLookup props s).isSome = true) →
      add_stratified_children stratification_name props compartment l m =
        Except.ok { m with
          compartment_names := m.compartment_names ++
            l.map (fun s => create_stratified_name compartment stratification_name s),
          compartment_values := m.compartment_values ++
            l.map (fun s => m.compartment_values.getD i 0 * (dictLookup props s).getD 0) } := by
  induction l with
  | nil =>
    intro m i hidx hlen hall
    simp [add_stratified_children]
  | cons s rest ih =>
    intro m i hidx hlen hall
    obtain ⟨p, hp⟩ := Option.isSome_iff_exists.1 (hall s (by simp))
    rw [show add_stratified_children stratification_name props compartment (s :: rest) m =
        add_stratified_children stratification_name props compartment rest
          (m.add_compartment (create_stratified_name compartment stratification_name s)
            (m.compartment_values.getD i 0 * p)) by
      simp [add_stratified_children, hidx, hp]]
    have hidx₁ : pyIndex (m.add_compartment (create_stratified_name compartment
        stratification_name s) (m.compartment_values.getD i 0 * p)).compartment_names
        compartment = Except.ok i := by
      simpa [Model.add_compartment] using pyIndex_append hidx _
    have hlen₁ : i < (m.add_compartment (create_stratified_name compartment
        stratification_name s) (m.compartment_values.getD i 0 * p)).compartment_values.length := by
      simp only [Model.add_compartment, List.length_append]
      omega
    have hall₁ : ∀ x ∈ rest, (dictLookup props x).isSome = true :=
      fun x hx => hall x (by simp [hx])
    rw [ih _ i hidx₁ hlen₁ hall₁]
    have hgetD₁ : (m.add_compartment (create_stratified_name compartment
        stratification_name s) (m.compartment_values.getD i 0 * p)).compartment_values.getD i 0 =
        m.compartment_values.getD i 0 := by
      simp only [Model.add_compartment]
      exact List.getD_append _ _ _ _ hlen
    simp only [Model.add_compartment, hgetD₁]
    rw [List.append_assoc, List.append_assoc]
    simp [hp]
    intro a ha
    left
    have h₁ := List.getD_append m.compartment_values
      [m.compartment_values.getD i 0 * p] 0 i hlen
    simpa [List.getD_eq_getElem?_getD] using h₁

/-- With distinct strata, distinct requested keys among them and positive
requested values, the filled proportions have a positive sum, so
`tidy_starting_proportions` succeeds. -/
theorem tidy_succeeds_of_pos {strata_names : List String} {requested : Dict ℚ}
    (hS : strata_names.Nodup)
    (hpos : ∀ kv ∈ requested, 0 < kv.2) (hne : strata_names ≠ []) :
    0 < (dictValues (fill_missing_proportions (1 / (strata_names.length : ℚ))
        strata_names requested)).sum := by
  rw [fill_missing_proportions_eq _ _ _ hS]
  set missing := strata_names.filter (fun s => (dictLookup requested s).isNone) with hmissing
  have hvals : dictValues (requested ++ missing.map
      (fun s => (s, 1 / (strata_names.length : ℚ)))) =
      dictValues requested ++ missing.map (fun s => 1 / (strata_names.length : ℚ)) := by
    simp only [dictValues, List.map_append, List.map_map]
    rfl
  rw [hvals, List.sum_append]
  have hk_pos : 0 < (1 / (strata_names.length : ℚ)) := by
    apply div_pos one_pos
    have : 0 < strata_names.length := List.length_pos.2 hne
    exact_mod_cast this
  have hreq_nonneg : 0 ≤ (dictValues requested).sum := by
    apply List.sum_nonneg
    intro x hx
    obtain ⟨kv, hkv, hkx⟩ := List.mem_map.1 hx
    exact le_of_lt (hkx ▸ hpos kv hkv)
  by_cases hm : missing = []
  · -- every stratum already has a requested proportion, so the requested dict
    -- is non-empty and its values are positive
    have hreq_ne : requested ≠ [] := by
      obtain ⟨s₀, rest₀, hsr⟩ : ∃ s₀ rest₀, strata_names = s₀ :: rest₀ := by
        cases strata_names with
        | nil => exact absurd rfl hne
        | cons a b => exact ⟨a, b, rfl⟩
      have hs₀ : s₀ ∈ strata_names := by rw [hsr]; exact List.mem_cons_self s₀ rest₀
      have hnot : ¬ (dictLookup requested s₀).isNone = true := by
        intro hnone
        have : s₀ ∈ missing := List.mem_filter.2 ⟨hs₀, hnone⟩
        rw [hm] at this
        simp at this
      intro hempty
      rw [hempty] at hnot
      simp [dictLookup] at hnot
    have hpos_sum : 0 < (dictValues requested).sum := by
      apply List.sum_pos
      · intro x hx
        obtain ⟨kv, hkv, hkx⟩ := List.mem_map.1 hx
        exact hkx ▸ hpos kv hkv
      · intro hvempty
        apply hreq_ne
        simpa [dictValues] using hvempty
    rw [hm]
    simpa using hpos_sum
  · have hmiss_pos : 0 < (missing.map (fun s => 1 / (strata_names.length : ℚ))).sum := by
      apply List.sum_pos
      · intro x hx
        obtain ⟨s, hs, hsx⟩ := List.mem_map.1 hx
        exact hsx ▸ hk_pos
      · intro hmapnil
        exact hm (by simpa using hmapnil)
    exact add_pos_of_nonneg_of_pos hreq_nonneg hmiss_pos

/-
  preservation lemmas for stratify_transition_flows (towards C1)
-/

theorem add_adjusted_parameter_step_preserves (u sname stratum : String)
    (req : String × AdjustmentRequest) (acc : Model × Option String) :
    (add_adjusted_parameter_step u sname stratum req acc).1.strata = acc.1.strata ∧
    (add_adjusted_parameter_step u sname stratum req acc).1.transition_flows =
      acc.1.transition_flows := by
  unfold add_adjusted_parameter_step
  by_cases hp : req.1.isPrefixOf u
  · simp only [hp, if_true]
    cases dictLookup req.2.adjustments stratum with
    | none => by_cases ho : stratum ∈ req.2.overwrite <;> simp [ho]
    | some value => by_cases ho : stratum ∈ req.2.overwrite <;> simp [ho]
  · simp [hp]

theorem add_adjusted_parameter_loop_preserves (u sname stratum : String)
    (adjreqs : AdjReqs) :
    ∀ acc : Model × Option String,
      (add_adjusted_parameter_loop u sname stratum adjreqs acc).1.strata = acc.1.strata ∧
      (add_adjusted_parameter_loop u sname stratum adjreqs acc).1.transition_flows =
        acc.1.transition_flows := by
  induction adjreqs with
  | nil => intro acc; exact ⟨rfl, rfl⟩
  | cons req rest ih =>
    intro acc
    obtain ⟨ih₁, ih₂⟩ := ih (add_adjusted_parameter_step u sname stratum req acc)
    obtain ⟨hs₁, hs₂⟩ := add_adjusted_parameter_step_preserves u sname stratum req acc
    exact ⟨ih₁.trans hs₁, ih₂.trans hs₂⟩

theorem add_adjusted_parameter_preserves (m : Model) (u sname stratum : String)
    (adjreqs : AdjReqs) :
    (m.add_adjusted_parameter u sname stratum adjreqs).1.strata = m.strata ∧
    (m.add_adjusted_parameter u sname stratum adjreqs).1.transition_flows =
      m.transition_flows :=
  add_adjusted_parameter_loop_preserves u sname stratum adjreqs (m, none)

theorem sort_absent_parameter_request_ok {m m₁ : Model}
    {sname : String} {strata_names : List String} {stratum : String}
    {so sd : Bool} {fp name : String}
    (h : m.sort_absent_parameter_request sname strata_names stratum so sd fp =
      Except.ok (m₁, name)) : m₁ = m := by
  unfold Model.sort_absent_parameter_request at h
  by_cases hc : ¬ so = true ∧ sd = true
  · rw [if_pos hc] at h
    exact absurd h (by simp)
  · rw [if_neg hc] at h
    simp at h
    exact h.1.symm

theorem add_stratified_flows_strata_preserves (f : TransitionFlow) (sname : String)
    (strata_names : List String) (so sd : Bool) (adjreqs : AdjReqs) :
    ∀ (l : List String) (m m' : Model),
      add_stratified_flows_strata f sname strata_names so sd adjreqs l m = Except.ok m' →
      m'.strata = m.strata ∧ ∀ g ∈ m.transition_flows, g ∈ m'.transition_flows := by
  intro l
  induction l with
  | nil =>
    intro m m' h
    simp [add_stratified_flows_strata] at h
    exact ⟨by rw [h], fun g hg => by rw [← h]; exact hg⟩
  | cons stratum rest ih =>
    intro m m' h
    rw [show add_stratified_flows_strata f sname strata_names so sd adjreqs
        (stratum :: rest) m =
        (match (match (m.add_adjusted_parameter f.parameter sname stratum adjreqs).2 with
                | some name =>
                  Except.ok ((m.add_adjusted_parameter f.parameter sname stratum adjreqs).1, name)
                | none =>
                  (m.add_adjusted_parameter f.parameter sname stratum
                    adjreqs).1.sort_absent_parameter_request sname strata_names stratum
                    so sd f.parameter) with
         | Except.error e => Except.error e
         | Except.ok (m₁, parameter_name) =>
           add_stratified_flows_strata f sname strata_names so sd adjreqs rest
             { m₁ with transition_flows := m₁.transition_flows ++
                 [{ type := f.type, parameter := parameter_name,
                    origin := if so then create_stratified_name f.origin sname stratum
                              else f.origin,
                    toC := if sd then create_stratified_name f.toC sname stratum
                           else f.toC,
                    implement := m₁.strata.length }] }) from rfl] at h
    obtain ⟨hadjs, hadjf⟩ :=
      add_adjusted_parameter_preserves m f.parameter sname stratum adjreqs
    cases hmatch : (m.add_adjusted_parameter f.parameter sname stratum adjreqs).2 with
    | some name =>
      rw [hmatch] at h
      simp only at h
      obtain ⟨hs, hmem⟩ := ih _ _ h
      refine ⟨by rw [hs]; exact hadjs, fun g hg => hmem g ?_⟩
      simp only [List.mem_append]
      left
      rw [hadjf]
      exact hg
    | none =>
      rw [hmatch] at h
      simp only at h
      cases hsort : (m.add_adjusted_parameter f.parameter sname stratum
          adjreqs).1.sort_absent_parameter_request sname strata_names stratum
          so sd f.parameter with
      | error e => rw [hsort] at h; exact absurd h (by simp)
      | ok pair =>
        obtain ⟨m₁, pname⟩ := pair
        have hm₁ : m₁ = (m.add_adjusted_parameter f.parameter sname stratum adjreqs).1 :=
          sort_absent_parameter_request_ok hsort
        rw [hsort] at h
        simp only at h
        obtain ⟨hs, hmem⟩ := ih _ _ h
        refine ⟨by rw [hs]; simp only; rw [hm₁]; exact hadjs, fun g hg => hmem g ?_⟩
        simp only [List.mem_append]
        left
        rw [hm₁, hadjf]
        exact hg

theorem add_stratified_flows_preserves {m m' : Model} {f : TransitionFlow}
    {sname : String} {strata_names : List String} {so sd : Bool} {adjreqs : AdjReqs}
    (h : m.add_stratified_flows f sname strata_names so sd adjreqs = Except.ok m') :
    m'.strata = m.strata ∧ ∀ g ∈ m.transition_flows, g ∈ m'.transition_flows := by
  unfold Model.add_stratified_flows at h
  by_cases hc : (so || sd) = true
  · rw [if_pos hc] at h
    exact add_stratified_flows_strata_preserves f sname strata_names so sd adjreqs
      strata_names m m' h
  · rw [if_neg hc] at h
    simp at h
    exact ⟨by rw [h], fun g hg => by rw [← h]; exact hg⟩

theorem stratify_transition_flows_aux_preserves (sname : String)
    (strata_names : List String) (adjreqs : AdjReqs) :
    ∀ (flows : List TransitionFlow) (m m' : Model),
      stratify_transition_flows_aux sname strata_names adjreqs flows m = Except.ok m' →
      m'.strata = m.strata ∧ ∀ g ∈ m.transition_flows, g ∈ m'.transition_flows := by
  intro flows
  induction flows with
  | nil =>
    intro m m' h
    simp [stratify_transition_flows_aux] at h
    exact ⟨by rw [h], fun g hg => by rw [← h]; exact hg⟩
  | cons f rest ih =>
    intro m m' h
    rw [show stratify_transition_flows_aux sname strata_names adjreqs (f :: rest) m =
        (match m.add_stratified_flows f sname strata_names
                (m.compartment_types_to_stratify.contains (find_stem f.origin))
                (m.compartment_types_to_stratify.contains (find_stem f.toC)) adjreqs with
         | Except.error e => Except.error e
         | Except.ok m₁ =>
           stratify_transition_flows_aux sname strata_names adjreqs rest m₁) from rfl] at h
    cases hstep : m.add_stratified_flows f sname strata_names
        (m.compartment_types_to_stratify.contains (find_stem f.origin))
        (m.compartment_types_to_stratify.contains (find_stem f.toC)) adjreqs with
    | error e => rw [hstep] at h; exact absurd h (by simp)
    | ok m₁ =>
      rw [hstep] at h
      simp only at h
      obtain ⟨hs₁, hmem₁⟩ := add_stratified_flows_preserves hstep
      obtain ⟨hs₂, hmem₂⟩ := ih m₁ m' h
      exact ⟨hs₂.trans hs₁, fun g hg => hmem₂ g (hmem₁ g hg)⟩

theorem stratify_transition_flows_preserves {m m' : Model} {sname : String}
    {strata_names : List String} {adjreqs : AdjReqs}
    (h : m.stratify_transition_flows sname strata_names adjreqs = Except.ok m') :
    m'.strata = m.strata ∧ ∀ g ∈ m.transition_flows, g ∈ m'.transition_flows :=
  stratify_transition_flows_aux_preserves sname strata_names adjreqs _ m m' h

/-
  lemmas about set_ageing_rates (towards C6)
-/

theorem set_ageing_rates_aux_env : ∀ (l : List ℚ) (m : Model),
    (set_ageing_rates_aux l m).strata = m.strata ∧
    (set_ageing_rates_aux l m).compartment_names = m.compartment_names := by
  intro l
  induction l with
  | nil => intro m; exact ⟨rfl, rfl⟩
  | cons x rest ih =>
    intro m
    cases rest with
    | nil => exact ⟨rfl, rfl⟩
    | cons y rest₂ =>
      obtain ⟨ih₁, ih₂⟩ := ih _
      exact ⟨ih₁, ih₂⟩

theorem set_ageing_rates_aux_flows : ∀ (l : List ℚ) (m : Model),
    ∀ g ∈ m.transition_flows, g ∈ (set_ageing_rates_aux l m).transition_flows := by
  intro l
  induction l with
  | nil => intro m g hg; exact hg
  | cons x rest ih =>
    intro m g hg
    cases rest with
    | nil => exact hg
    | cons y rest₂ =>
      apply ih
      simp only [List.mem_append]
      left
      exact hg

theorem set_ageing_rates_aux_lookup : ∀ (l : List ℚ) (m : Model) (name : String),
    ¬ name ∈ ageing_parameter_names l →
    dictLookup (set_ageing_rates_aux l m).parameters name =
      dictLookup m.parameters name := by
  intro l
  induction l with
  | nil => intro m name _; rfl
  | cons x rest ih =>
    intro m name hname
    cases rest with
    | nil => rfl
    | cons y rest₂ =>
      have hhead : ("ageing" ++ toString x ++ "to" ++ toString y) ≠ name := by
        intro he
        exact hname (he ▸ List.mem_cons_self _ _)
      have htail : ¬ name ∈ ageing_parameter_names (y :: rest₂) := by
        intro hmem
        exact hname (List.mem_cons_of_mem _ hmem)
      rw [show set_ageing_rates_aux (x :: y :: rest₂) m =
          set_ageing_rates_aux (y :: rest₂)
            { m with
              parameters :=
                dictInsert m.parameters ("ageing" ++ toString x ++ "to" ++ toString y)
                  (1 / (y - x)),
              transition_flows :=
                m.transition_flows ++
                  ageing_flows_for_pair ("ageing" ++ toString x ++ "to" ++ toString y) x y
                    m.strata.length m.compartment_names } from rfl]
      rw [ih _ name htail]
      exact dictLookup_insert_other m.parameters _ hhead

theorem ageing_flows_for_pair_mem (aname : String) (a b : ℚ) (impl : Nat) :
    ∀ (names : List String) (c : String), c ∈ names →
    ({ type := "standard_flows", parameter := aname,
       origin := create_stratified_name c "age" (toString a),
       toC := create_stratified_name c "age" (toString b),
       implement := impl } : TransitionFlow) ∈
      ageing_flows_for_pair aname a b impl names := by
  intro names
  induction names with
  | nil => intro c hc; simp at hc
  | cons n rest ih =>
    intro c hc
    rw [ageing_flows_for_pair]
    cases hc with
    | head => exact List.mem_cons_self _ _
    | tail _ hr => exact List.mem_cons_of_mem _ (ih c hr)

/-
  lemmas about entry fractions (towards C7)
-/

theorem string_append_left_cancel {a b c : String} (h : a ++ b = a ++ c) : b = c := by
  have hdata : a.data ++ b.data = a.data ++ c.data := by
    have h₁ := congrArg String.data h
    simpa using h₁
  have hbc : b.data = c.data := List.append_cancel_left hdata
  exact String.ext hbc

theorem create_stratified_name_inj {stem sname x y : String}
    (h : create_stratified_name stem sname x = create_stratified_name stem sname y) :
    x = y := by
  unfold create_stratified_name create_stratum_name at h
  exact string_append_left_cancel (string_append_left_cancel h)

theorem dictLookup_map_pairs {β : Type} (f : String → String) (g : String → β)
    (l : List String) (a : String) (ha : a ∈ l)
    (hinj : ∀ x ∈ l, f x = f a → x = a) :
    dictLookup (l.map (fun s => (f s, g s))) (f a) = some (g a) := by
  induction l with
  | nil => simp at ha
  | cons x rest ih =>
    by_cases hx : x = a
    · subst hx
      simp [dictLookup]
    · have hfx : f x ≠ f a := fun he => hx (hinj x (List.mem_cons_self x rest) he)
      rw [List.map_cons]
      show (if f x = f a then some (g x) else
        dictLookup (rest.map (fun s => (f s, g s))) (f a)) = some (g a)
      rw [if_neg hfx]
      have ha₂ : a ∈ rest := by
        cases ha with
        | head => exact absurd rfl hx
        | tail _ hr => exact hr
      exact ih ha₂ (fun z hz he => hinj z (List.mem_cons_of_mem x hz) he)

theorem build_entry_fractions_non_age (sname : String) (strata_names : List String)
    (props : Dict ℚ) (hsname : sname ≠ "age")
    (hadj : dictLookup props "adjustments" = none) :
    ∀ l : List String, build_entry_fractions sname strata_names props l =
      Except.ok (l.map (fun s =>
        (create_stratified_name "entry_fraction" sname s,
          1 / (strata_names.length : ℚ)))) := by
  intro l
  induction l with
  | nil => rfl
  | cons s rest ih =>
    rw [build_entry_fractions, if_neg (fun h => hsname h.1), if_neg hsname, hadj,
      if_neg (by simp), ih]
    rfl

theorem build_entry_fractions_age (strata_names : List String) (props : Dict ℚ) :
    ∀ l : List String, build_entry_fractions "age" strata_names props l =
      Except.ok (l.map (fun s =>
        (create_stratified_name "entry_fraction" "age" s,
          if s = "0" then (1 : ℚ) else 0))) := by
  intro l
  induction l with
  | nil => rfl
  | cons s rest ih =>
    by_cases hs : s = "0"
    · rw [build_entry_fractions, if_pos ⟨rfl, hs⟩, ih]
      simp [hs]
    · rw [build_entry_fractions, if_neg (fun h => hs h.2), if_pos rfl, ih]
      simp [hs]

theorem dictValues_map_pairs {β : Type} (f : String → String) (g : String → β)
    (l : List String) :
    dictValues (l.map (fun s => (f s, g s))) = l.map g := by
  simp only [dictValues, List.map_map]
  rfl

theorem sum_map_const_rat (l : List String) (c : ℚ) :
    (l.map (fun s => c)).sum = (l.length : ℚ) * c := by
  induction l with
  | nil => simp
  | cons x rest ih =>
    simp only [List.map_cons, List.sum_cons, ih, List.length_cons]
    push_cast
    ring

theorem sum_map_indicator_zero (l : List String) :
    (l.map (fun s => if s = "0" then (1 : ℚ) else 0)).sum = (l.count "0" : ℚ) := by
  induction l with
  | nil => simp
  | cons x rest ih =>
    by_cases hx : x = "0"
    · subst hx
      simp [List.count_cons, ih, add_comm]
    · simp [List.count_cons, ih, hx, add_comm]

/-
  conservation lemmas for the right-hand side (towards C8)
-/

theorem apply_flow_ok_sum {m : Model} {values : List ℚ} {t : ℚ} {ode ode' : List ℚ}
    {f : TransitionFlow}
    (hlen : ode.length = m.compartment_names.length)
    (h : apply_flow m values t ode f = Except.ok ode') :
    ode'.sum = ode.sum ∧ ode'.length = ode.length := by
  unfold apply_flow at h
  cases h₁ : m.get_parameter_value f.parameter t with
  | error e => rw [h₁] at h; exact absurd h (by simp)
  | ok adjusted =>
    rw [h₁] at h
    cases h₂ : m.find_infectious_multiplier f.type with
    | error e => rw [h₂] at h; exact absurd h (by simp)
    | ok infectious_population =>
      rw [h₂] at h
      cases h₃ : pyIndex m.compartment_names f.origin with
      | error e => rw [h₃] at h; exact absurd h (by simp)
      | ok from_compartment =>
        rw [h₃] at h
        cases h₄ : pyIndex m.compartment_names f.toC with
        | error e => rw [h₄] at h; exact absurd h (by simp)
        | ok to_compartment =>
          rw [h₄] at h
          simp only [Except.ok.injEq] at h
          subst h
          have hi : from_compartment < ode.length := by
            rw [hlen]; exact pyIndex_lt h₃
          have hj : to_compartment < (increment_compartment ode from_compartment
              (-(adjusted * values.getD from_compartment 0 * infectious_population))).length := by
            rw [increment_compartment_length, hlen]
            exact pyIndex_lt h₄
          constructor
          · rw [sum_increment_compartment _ hj, sum_increment_compartment _ hi]
            ring
          · rw [increment_compartment_length, increment_compartment_length]

theorem apply_transition_flows_aux_sum {m : Model} {values : List ℚ} {t : ℚ} :
    ∀ (flows : List TransitionFlow) (ode ode' : List ℚ),
      ode.length = m.compartment_names.length →
      apply_transition_flows_aux m values t flows ode = Except.ok ode' →
      ode'.sum = ode.sum ∧ ode'.length = ode.length := by
  intro flows
  induction flows with
  | nil =>
    intro ode ode' hlen h
    simp [apply_transition_flows_aux] at h
    exact ⟨by rw [h], by rw [h]⟩
  | cons f rest ih =>
    intro ode ode' hlen h
    rw [show apply_transition_flows_aux m values t (f :: rest) ode =
        (match apply_flow m values t ode f with
         | Except.error e => Except.error e
         | Except.ok ode₁ => apply_transition_flows_aux m values t rest ode₁) from rfl] at h
    cases hstep : apply_flow m values t ode f with
    | error e => rw [hstep] at h; exact absurd h (by simp)
    | ok ode₁ =>
      rw [hstep] at h
      obtain ⟨hs₁, hl₁⟩ := apply_flow_ok_sum hlen hstep
      obtain ⟨hs₂, hl₂⟩ := ih ode₁ ode' (hl₁.trans hlen) h
      exact ⟨hs₂.trans hs₁, hl₂.trans hl₁⟩

theorem apply_universal_death_flow_aux_sum {m : Model} {values : List ℚ} {t : ℚ}
    (hu : m.get_parameter_value "universal_death_rate" t = Except.ok 0) :
    ∀ (names : List String) (ode : List ℚ) (tq : Dict ℚ) (out : List ℚ × Dict ℚ),
      ode.length = m.compartment_names.length →
      apply_universal_death_flow_aux m values t names ode tq = Except.ok out →
      out.1.sum = ode.sum ∧ out.1.length = ode.length := by
  intro names
  induction names with
  | nil =>
    intro ode tq out hlen h
    simp [apply_universal_death_flow_aux] at h
    exact ⟨by rw [← h], by rw [← h]⟩
  | cons c rest ih =>
    intro ode tq out hlen h
    rw [show apply_universal_death_flow_aux m values t (c :: rest) ode tq =
        (match m.get_parameter_value "universal_death_rate" t with
         | Except.error e => Except.error e
         | Except.ok adjusted_parameter =>
           match pyIndex m.compartment_names c with
           | Except.error e => Except.error e
           | Except.ok from_compartment =>
             apply_universal_death_flow_aux m values t rest
               (increment_compartment ode from_compartment
                 (-(adjusted_parameter * values.getD from_compartment 0)))
               (track_deaths tq (adjusted_parameter * values.getD from_compartment 0)))
        from rfl] at h
    rw [hu] at h
    simp only at h
    cases hidx : pyIndex m.compartment_names c with
    | error e => rw [hidx] at h; exact absurd h (by simp)
    | ok from_compartment =>
      rw [hidx] at h
      have hi : from_compartment < ode.length := by
        rw [hlen]; exact pyIndex_lt hidx
      obtain ⟨hs, hl⟩ := ih _ _ out
        (by rw [increment_compartment_length]; exact hlen) h
      constructor
      · rw [hs, sum_increment_compartment _ hi]
        ring
      · rw [hl, increment_compartment_length]

theorem apply_birth_rate_aux_zero_sum {m : Model} :
    ∀ (names : List String) (ode ode' : List ℚ),
      ode.length = m.compartment_names.length →
      apply_birth_rate_aux m 0 names ode = Except.ok ode' →
      ode'.sum = ode.sum ∧ ode'.length = ode.length := by
  intro names
  induction names with
  | nil =>
    intro ode ode' hlen h
    simp [apply_birth_rate_aux] at h
    exact ⟨by rw [h], by rw [h]⟩
  | cons c rest ih =>
    intro ode ode' hlen h
    rw [show apply_birth_rate_aux m 0 (c :: rest) ode =
        (if find_stem c = m.entry_compartment then
          match compartment_entry_fraction m.parameters c with
          | Except.error e => Except.error e
          | Except.ok entry_fraction =>
            match pyIndex m.compartment_names c with
            | Except.error e => Except.error e
            | Except.ok idx =>
              apply_birth_rate_aux m 0 rest
                (increment_compartment ode idx (entry_fraction * 0))
         else apply_birth_rate_aux m 0 rest ode) from rfl] at h
    by_cases hstem : find_stem c = m.entry_compartment
    · rw [if_pos hstem] at h
      cases hef : compartment_entry_fraction m.parameters c with
      | error e => rw [hef] at h; exact absurd h (by simp)
      | ok entry_fraction =>
        rw [hef] at h
        cases hidx : pyIndex m.compartment_names c with
        | error e => rw [hidx] at h; exact absurd h (by simp)
        | ok idx =>
          rw [hidx] at h
          have hi : idx < ode.length := by
            rw [hlen]; exact pyIndex_lt hidx
          obtain ⟨hs, hl⟩ := ih _ ode'
            (by rw [increment_compartment_length]; exact hlen) h
          constructor
          · rw [hs, sum_increment_compartment _ hi]
            ring
          · rw [hl, increment_compartment_length]
    · rw [if_neg hstem] at h
      exact ih ode ode' hlen h

theorem find_total_births_no_birth {m : Model} {values : List ℚ} {tq : Dict ℚ}
    (hb : m.birth_approach = "no_birth") :
    m.find_total_births values tq = Except.ok 0 := by
  unfold Model.find_total_births
  rw [hb]
  rfl

/-
  claim theorems
-/

/-- C2: for a stratification call whose starting proportions name only
requested strata (with distinct keys and positive values, as a Python dict of
proportions has), tidying succeeds and the child compartments created for a
stratified compartment carry values that are the parent value split by the
normalised proportions; those values sum exactly to the parent's
pre-stratification value, because `tidy_starting_proportions` normalises the
filled proportions to sum to 1. -/
theorem C2_stratification_mass_balance (m : Model)
    (stratification_name compartment : String) (strata_names : List String)
    (requested : Dict ℚ) (i : Nat)
    (hS : strata_names.Nodup) (hR : (dictKeys requested).Nodup)
    (hsub : ∀ k ∈ dictKeys requested, k ∈ strata_names) (hne : strata_names ≠ [])
    (hpos : ∀ kv ∈ requested, 0 < kv.2)
    (hidx : pyIndex m.compartment_names compartment = Except.ok i)
    (hlen : i < m.compartment_values.length) :
    ∃ props m', tidy_starting_proportions strata_names requested = Except.ok props ∧
      add_stratified_children stratification_name props compartment strata_names m =
        Except.ok m' ∧
      m'.compartment_values = m.compartment_values ++
        strata_names.map
          (fun s => m.compartment_values.getD i 0 * (dictLookup props s).getD 0) ∧
      (strata_names.map
          (fun s => m.compartment_values.getD i 0 * (dictLookup props s).getD 0)).sum =
        m.compartment_values.getD i 0 := by
  have hTpos := tidy_succeeds_of_pos hS hpos hne
  have htidy : tidy_starting_proportions strata_names requested =
      Except.ok ((fill_missing_proportions (1 / (strata_names.length : ℚ))
        strata_names requested).map
        (fun kv => (kv.1, kv.2 / (dictValues (fill_missing_proportions
          (1 / (strata_names.length : ℚ)) strata_names requested)).sum))) := by
    unfold tidy_starting_proportions
    exact normalise_dict_of_sum_ne_zero (ne_of_gt hTpos)
  obtain ⟨hsum, hsome⟩ := tidy_proportions_sum_one hS hR hsub hne htidy
  refine ⟨_, _, htidy, add_stratified_children_spec stratification_name _ compartment
    strata_names m i hidx hlen hsome, rfl, ?_⟩
  rw [List.sum_map_mul_left, hsum, mul_one]

/-- C2 witness: a compartment of value 7 stratified into strata "u" and "v"
with no explicit proportions; the children each get half of the parent and
sum back to 7. -/
theorem C2_stratification_mass_balance_witness :
    ∃ props m', tidy_starting_proportions ["u", "v"] [] = Except.ok props ∧
      add_stratified_children "risk" props "c1" ["u", "v"] mC2w = Except.ok m' ∧
      m'.compartment_values = mC2w.compartment_values ++
        ["u", "v"].map
          (fun s => mC2w.compartment_values.getD 0 0 * (dictLookup props s).getD 0) ∧
      (["u", "v"].map
          (fun s => mC2w.compartment_values.getD 0 0 * (dictLookup props s).getD 0)).sum =
        mC2w.compartment_values.getD 0 0 :=
  C2_stratification_mass_balance mC2w "risk" "c1" ["u", "v"] [] 0
    (by decide) (by decide) (by decide) (by decide) (by simp) rfl (by decide)

/-- C3: the claimed overwrite truncation fails in the code.  For the constant
overwrite component "recoveryXhiv_positive" of value 5 over the ancestor
constant "recovery" of value 2, `find_parameter_components` keeps collecting
the shallower ancestor after resetting at the overwrite (the branch for a
constant overwrite has no `break`, unlike the time-variant branch), so the
cached constant value is 5 * 2 = 10 and `get_parameter_value` resolves 10
instead of the overwrite value 5. -/
theorem C3_overwrite_not_truncating_code_eval :
    mC3.find_parameter_components "recoveryXhiv_positive" =
      { time_variants := [], constants := ["recoveryXhiv_positive", "recovery"],
        constant_value := 10 } ∧
    mC3_prepared.get_parameter_value "recoveryXhiv_positive" 0 = Except.ok 10 ∧
    (10 : ℚ) ≠ 5 := by
  refine ⟨?_, rfl, by norm_num⟩
  have hloop : mC3.find_parameter_components_loop "recoveryXhiv_positive"
      (extract_reversed_x_positions "recoveryXhiv_positive")
      { time_variants := [], constants := [], constant_value := 1 } =
      { time_variants := [], constants := ["recoveryXhiv_positive", "recovery"],
        constant_value := 1 } := by decide
  unfold Model.find_parameter_components
  rw [hloop]
  norm_num +decide [dictLookup, mC3, emptyModel]

/-- C4: the claimed default split of a destination-stratified flow into 1/k
parts crashes in the code.  With no adjustment request, a flow whose
destination stem (and only it) is being stratified reaches
`sort_absent_parameter_request`, whose splitting branch never binds the local
variable it returns, so the whole stratification call raises
UnboundLocalError instead of succeeding. -/
theorem C4_destination_split_crashes_code_eval :
    mC4.sort_absent_parameter_request "test" ["u", "v"] "u" false true "p" =
      Except.error "UnboundLocalError: local variable parameter_name referenced before assignment" ∧
    mC4.stratify "test" ["u", "v"] ["b"] [] [] =
      Except.error "UnboundLocalError: local variable parameter_name referenced before assignment" := by
  refine ⟨rfl, ?_⟩
  norm_num +decide [Model.stratify, Model.check_compartment_request,
    check_parameter_adjustment_requests, tidy_starting_proportions,
    fill_missing_proportions, normalise_dict, dictLookup, dictValues, dictKeys,
    dictUpdate, Model.stratify_compartments, stratify_compartments_aux,
    add_stratified_children, Model.remove_compartment, Model.add_compartment,
    pyIndex, find_stem, Model.stratify_transition_flows,
    stratify_transition_flows_aux, Model.add_stratified_flows,
    add_stratified_flows_strata, Model.sort_absent_parameter_request,
    Model.add_adjusted_parameter, add_adjusted_parameter_loop,
    Model.stratify_entry_flows, build_entry_fractions, mC4, emptyModel,
    create_stratified_name, create_stratum_name]

/-- C5: the construction-time checks on the infectious-compartment name and
the birth approach do not raise: the source builds the `ValueError` objects
without `raise`, so `check_and_report_attributes` returns normally even when
the infectious compartment is not a declared compartment type and the birth
approach is unsupported. -/
theorem C5_validation_never_raises_code_eval :
    ¬ "not_a_compartment" ∈ ["susceptible", "infectious", "recovered"] ∧
    ¬ "not_an_approach" ∈ ["add_crude_birth_rate", "replace_deaths", "no_births"] ∧
    check_and_report_attributes ["susceptible", "infectious", "recovered"]
      "not_a_compartment" "not_an_approach"
      ["add_crude_birth_rate", "replace_deaths", "no_births"] = Except.ok () :=
  ⟨by decide, by decide, rfl⟩

/-- C10: `StratifiedModel.__init__` hard-codes every optional argument on its
delegation to `EpiModel.__init__`, so whatever the caller passes, the base
model is built with the defaults: totals summed, infectious compartment
"infectious", birth approach "no_birth", no reporting, 4 significant figures,
entry compartment "susceptible", starting population 1, empty default
starting compartment and no equilibrium tolerance. -/
theorem C10_constructor_arguments_discarded
    (initial_conditions_to_total : Bool) (infectious_compartment : String)
    (birth_approach : String) (report : Bool) (reporting_sigfigs : Int)
    (entry_compartment : String) (starting_population : Int)
    (default_starting_compartment : String)
    (equilibrium_stopping_tolerance : Option ℚ) :
    stratified_model_init_delegation initial_conditions_to_total infectious_compartment
      birth_approach report reporting_sigfigs entry_compartment starting_population
      default_starting_compartment equilibrium_stopping_tolerance =
    { initial_conditions_to_total := true, infectious_compartment := "infectious",
      birth_approach := "no_birth", report := false, reporting_sigfigs := 4,
      entry_compartment := "susceptible", starting_population := 1,
      default_starting_compartment := "", equilibrium_stopping_tolerance := none } := rfl

/-- C1 counterexample: the claim that an untouched flow "remains active" and
"the right-hand-side evaluation after the stratification still applies that
flow" is false on the code.  Stratifying only compartment "c" of `mC1` leaves
its a-to-b flow in the table at generation 0, but the new stratification
depth is 1, the active-flow filter after the call selects nothing, and the
right-hand-side transition evaluation returns the all-zero rate vector even
though the flow's parameter is the constant 2 and its origin holds value 1. -/
theorem C1_untouched_flow_counterexample :
    mC1.stratify "test" ["u", "v"] ["c"] [] [] = Except.ok mC1_post ∧
    flowC1 ∈ mC1_post.transition_flows ∧
    flowC1.implement = 0 ∧ mC1_post.strata.length = 1 ∧
    mC1_post.active_transition_flows = [] ∧
    mC1_post.apply_transition_flows [0, 0, 0, 0] mC1_post.compartment_values 0 =
      Except.ok [0, 0, 0, 0] ∧
    dictLookup mC1_post.parameters "p" = some 2 ∧
    mC1_post.compartment_values.getD 0 0 = 1 := by
  refine ⟨?_, by decide, rfl, rfl, by decide, rfl, rfl, rfl⟩
  norm_num +decide [Model.stratify, Model.check_compartment_request,
    check_parameter_adjustment_requests, tidy_starting_proportions,
    fill_missing_proportions, normalise_dict, dictLookup, dictValues, dictKeys,
    dictUpdate, Model.stratify_compartments, stratify_compartments_aux,
    add_stratified_children, Model.remove_compartment, Model.add_compartment,
    pyIndex, find_stem, Model.stratify_transition_flows,
    stratify_transition_flows_aux, Model.add_stratified_flows,
    add_stratified_flows_strata, Model.sort_absent_parameter_request,
    Model.add_adjusted_parameter, add_adjusted_parameter_loop,
    add_adjusted_parameter_step, Model.stratify_entry_flows,
    build_entry_fractions, Model.stratify_death_flows, stratify_death_flows_aux,
    Model.stratify_universal_death_rate, stratify_universal_params,
    stratify_universal_strata, mC1, mC1_post, flowC1, emptyModel,
    create_stratified_name, create_stratum_name]

/-- C1 (amended): a transition flow of the previous generation whose origin
and destination stems are both outside the stratify set is left exactly as it
is by `stratify_transition_flows` — its record survives unchanged and no
per-stratum copies of it are made — but it does NOT remain active: the
evaluation after the stratification only applies flows whose generation
equals the new stratification count, which the untouched flow's tag no
longer matches. -/
theorem C1_untouched_flow_left_as_is_but_inactive (m : Model)
    (stratification_name : String) (strata_names : List String)
    (adjustment_requests : AdjReqs) (f : TransitionFlow) (m' : Model)
    (hf : f ∈ m.transition_flows)
    (himpl : f.implement = m.strata.length - 1)
    (hpos : 0 < m.strata.length)
    (ho : m.compartment_types_to_stratify.contains (find_stem f.origin) = false)
    (ht : m.compartment_types_to_stratify.contains (find_stem f.toC) = false)
    (h : m.stratify_transition_flows stratification_name strata_names
      adjustment_requests = Except.ok m') :
    f ∈ m'.transition_flows ∧ m'.strata = m.strata ∧
    f ∉ m'.active_transition_flows ∧
    (∀ m₀ : Model, m₀.add_stratified_flows f stratification_name strata_names
      (m.compartment_types_to_stratify.contains (find_stem f.origin))
      (m.compartment_types_to_stratify.contains (find_stem f.toC))
      adjustment_requests = Except.ok m₀) := by
  obtain ⟨hstrata, hmem⟩ := stratify_transition_flows_preserves h
  refine ⟨hmem f hf, hstrata, ?_, ?_⟩
  · intro hactive
    have hfilter := List.mem_filter.1 hactive
    have himp₂ : f.implement = m'.strata.length := by
      have := hfilter.2
      simpa using this
    rw [hstrata] at himp₂
    omega
  · intro m₀
    rw [ho, ht]
    rfl

/-- C1 witness: in the mid-stratification state of `mC1` (strata recorded,
stratify set "c"), the a-to-b flow at generation 0 is selected, left as-is,
and is inactive at the new depth 1 afterwards. -/
theorem C1_untouched_flow_left_as_is_but_inactive_witness :
    flowC1 ∈ mC1_mid.transition_flows ∧
    flowC1.implement = mC1_mid.strata.length - 1 ∧
    0 < mC1_mid.strata.length ∧
    mC1_mid.stratify_transition_flows "test" ["u", "v"] [] = Except.ok mC1_mid ∧
    (flowC1 ∈ mC1_mid.transition_flows ∧ mC1_mid.strata = mC1_mid.strata ∧
      flowC1 ∉ mC1_mid.active_transition_flows ∧
      (∀ m₀ : Model, m₀.add_stratified_flows flowC1 "test" ["u", "v"]
        (mC1_mid.compartment_types_to_stratify.contains (find_stem flowC1.origin))
        (mC1_mid.compartment_types_to_stratify.contains (find_stem flowC1.toC))
        [] = Except.ok m₀)) :=
  ⟨by decide, by decide, by decide, rfl,
    C1_untouched_flow_left_as_is_but_inactive mC1_mid "test" ["u", "v"] [] flowC1
      mC1_mid (by decide) (by decide) (by decide) (by decide) (by decide) rfl⟩

/-- C6: for every consecutive pair (a, b) of the age breakpoints handed to
`set_ageing_rates` (sorted and distinct in use, so that the synthesized
parameter names are distinct), the installed ageing parameter has value
exactly 1 / (b - a), and for every compartment an ageing transition flow is
inserted from its a-stratum to its b-stratum at the new generation under
that parameter. -/
theorem C6_ageing_rates (m : Model) (strata_names : List ℚ) (a b : ℚ) (c : String)
    (hnodup : (ageing_parameter_names strata_names).Nodup)
    (hpair : (a, b) ∈ strata_names.zip strata_names.tail)
    (hc : c ∈ m.compartment_names) :
    dictLookup (m.set_ageing_rates strata_names).parameters
      ("ageing" ++ toString a ++ "to" ++ toString b) = some (1 / (b - a)) ∧
    ({ type := "standard_flows",
       parameter := "ageing" ++ toString a ++ "to" ++ toString b,
       origin := create_stratified_name c "age" (toString a),
       toC := create_stratified_name c "age" (toString b),
       implement := m.strata.length } : TransitionFlow) ∈
      (m.set_ageing_rates strata_names).transition_flows := by
  induction strata_names generalizing m with
  | nil => simp at hpair
  | cons x rest ih =>
    cases rest with
    | nil => simp at hpair
    | cons y rest₂ =>
      have hunfold : m.set_ageing_rates (x :: y :: rest₂) =
          set_ageing_rates_aux (y :: rest₂)
            { m with
              parameters :=
                dictInsert m.parameters ("ageing" ++ toString x ++ "to" ++ toString y)
                  (1 / (y - x)),
              transition_flows :=
                m.transition_flows ++
                  ageing_flows_for_pair ("ageing" ++ toString x ++ "to" ++ toString y) x y
                    m.strata.length m.compartment_names } := rfl
      have hpair₂ : (a, b) = (x, y) ∨ (a, b) ∈ (y :: rest₂).zip ((y :: rest₂).tail) := by
        have : (a, b) ∈ (x, y) :: (y :: rest₂).zip rest₂ := by
          simpa using hpair
        cases this with
        | head => left; rfl
        | tail _ hmem => right; simpa using hmem
      have hname_cons : ageing_parameter_names (x :: y :: rest₂) =
          ("ageing" ++ toString x ++ "to" ++ toString y) ::
            ageing_parameter_names (y :: rest₂) := rfl
      have hhead_notin : ¬ ("ageing" ++ toString x ++ "to" ++ toString y) ∈
          ageing_parameter_names (y :: rest₂) := by
        rw [hname_cons] at hnodup
        exact (List.nodup_cons.1 hnodup).1
      have htail_nodup : (ageing_parameter_names (y :: rest₂)).Nodup := by
        rw [hname_cons] at hnodup
        exact (List.nodup_cons.1 hnodup).2
      cases hpair₂ with
      | inl heq =>
        have ha : a = x := congrArg Prod.fst heq
        have hb : b = y := congrArg Prod.snd heq
        subst ha
        subst hb
        rw [hunfold]
        constructor
        · rw [set_ageing_rates_aux_lookup _ _ _ hhead_notin]
          exact dictLookup_insert_self _ _ _
        · apply set_ageing_rates_aux_flows
          simp only [List.mem_append]
          right
          exact ageing_flows_for_pair_mem _ a b m.strata.length m.compartment_names c hc
      | inr hmem =>
        rw [hunfold]
        have := ih (m := { m with
              parameters :=
                dictInsert m.parameters ("ageing" ++ toString x ++ "to" ++ toString y)
                  (1 / (y - x)),
              transition_flows :=
                m.transition_flows ++
                  ageing_flows_for_pair ("ageing" ++ toString x ++ "to" ++ toString y) x y
                    m.strata.length m.compartment_names }) htail_nodup hmem hc
        exact this

/-- C6 witness: for breakpoints [0, 5, 15] the ageing rate from the 0 stratum
to the 5 stratum is 1/(5-0) = 1/5 and from 5 to 15 it is 1/(15-5) = 1/10,
with the corresponding flows inserted for the only compartment. -/
theorem C6_ageing_rates_witness :
    (dictLookup (mC6w.set_ageing_rates [0, 5, 15]).parameters
        ("ageing" ++ toString (0 : ℚ) ++ "to" ++ toString (5 : ℚ)) =
      some (1 / ((5 : ℚ) - 0)) ∧
    ({ type := "standard_flows",
       parameter := "ageing" ++ toString (0 : ℚ) ++ "to" ++ toString (5 : ℚ),
       origin := create_stratified_name "susceptible" "age" (toString (0 : ℚ)),
       toC := create_stratified_name "susceptible" "age" (toString (5 : ℚ)),
       implement := mC6w.strata.length } : TransitionFlow) ∈
      (mC6w.set_ageing_rates [0, 5, 15]).transition_flows) ∧
    (dictLookup (mC6w.set_ageing_rates [0, 5, 15]).parameters
        ("ageing" ++ toString (5 : ℚ) ++ "to" ++ toString (15 : ℚ)) =
      some (1 / ((15 : ℚ) - 5)) ∧
    ({ type := "standard_flows",
       parameter := "ageing" ++ toString (5 : ℚ) ++ "to" ++ toString (15 : ℚ),
       origin := create_stratified_name "susceptible" "age" (toString (5 : ℚ)),
       toC := create_stratified_name "susceptible" "age" (toString (15 : ℚ)),
       implement := mC6w.strata.length } : TransitionFlow) ∈
      (mC6w.set_ageing_rates [0, 5, 15]).transition_flows) :=
  ⟨C6_ageing_rates mC6w [0, 5, 15] 0 5 "susceptible" (by decide) (by decide) (by decide),
   C6_ageing_rates mC6w [0, 5, 15] 5 15 "susceptible" (by decide) (by decide) (by decide)⟩

/-- C7: when the entry compartment's stem is in the stratify set, the
synthesized per-stratum entry-fraction parameters recorded by
`stratify_entry_flows` sum to 1 after normalisation, and for an age
stratification the stratum "0" receives fraction 1 while every other stratum
receives 0. -/
theorem C7_entry_fraction_normalisation (m : Model) (stratification_name : String)
    (strata_names : List String) (requested_proportions : Dict ℚ)
    (hentry : m.compartment_types_to_stratify.contains m.entry_compartment = true)
    (hne : strata_names ≠ []) (hnodup : strata_names.Nodup)
    (hadj : dictLookup requested_proportions "adjustments" = none)
    (hage0 : stratification_name = "age" → "0" ∈ strata_names) :
    ∃ entry_fractions normalised m',
      build_entry_fractions stratification_name strata_names requested_proportions
        strata_names = Except.ok entry_fractions ∧
      normalise_dict entry_fractions = Except.ok normalised ∧
      m.stratify_entry_flows stratification_name strata_names requested_proportions =
        Except.ok m' ∧
      m'.parameters = dictUpdate m.parameters normalised ∧
      (dictValues normalised).sum = 1 ∧
      (stratification_name = "age" →
        dictLookup normalised (create_stratified_name "entry_fraction" "age" "0") =
          some 1 ∧
        ∀ s ∈ strata_names, s ≠ "0" →
          dictLookup normalised (create_stratified_name "entry_fraction" "age" s) =
            some 0) := by
  by_cases hage : stratification_name = "age"
  · subst hage
    have hbuild := build_entry_fractions_age strata_names requested_proportions strata_names
    set efs := strata_names.map (fun s =>
      (create_stratified_name "entry_fraction" "age" s,
        if s = "0" then (1 : ℚ) else 0)) with hefs
    have hT : (dictValues efs).sum = 1 := by
      rw [hefs, dictValues_map_pairs, sum_map_indicator_zero,
        List.count_eq_one_of_mem hnodup (hage0 rfl)]
      norm_num
    have hnorm : normalise_dict efs =
        Except.ok (efs.map (fun kv => (kv.1, kv.2 / 1))) := by
      rw [normalise_dict_of_sum_ne_zero (by rw [hT]; norm_num), hT]
    refine ⟨efs, efs.map (fun kv => (kv.1, kv.2 / 1)),
      { m with parameters := dictUpdate m.parameters (efs.map (fun kv => (kv.1, kv.2 / 1))) },
      hbuild, hnorm, ?_, rfl, ?_, ?_⟩
    · unfold Model.stratify_entry_flows
      simp only [hentry, if_true, hbuild, hnorm]
    · have hvals : dictValues (efs.map (fun kv => (kv.1, kv.2 / 1))) =
          (dictValues efs).map (fun v => v / 1) := by
        simp only [dictValues, List.map_map]
        rfl
      rw [hvals]
      have hid : (dictValues efs).map (fun v => v / 1) = dictValues efs :=
        (List.map_congr_left (fun v hv => div_one v)).trans (List.map_id _)
      rw [hid, hT]
    · intro _
      constructor
      · have hlook := dictLookup_map_pairs
          (fun s => create_stratified_name "entry_fraction" "age" s)
          (fun s => if s = "0" then (1 : ℚ) else 0) strata_names "0" (hage0 rfl)
          (fun x hx he => create_stratified_name_inj he)
        have hmv := dictLookup_map_values efs (fun v => v / 1)
          (create_stratified_name "entry_fraction" "age" "0")
        rw [hmv]
        rw [hefs]
        simp only at hlook
        rw [hlook]
        norm_num
      · intro s hs hs0
        have hlook := dictLookup_map_pairs
          (fun x => create_stratified_name "entry_fraction" "age" x)
          (fun x => if x = "0" then (1 : ℚ) else 0) strata_names s hs
          (fun x hx he => create_stratified_name_inj he)
        have hmv := dictLookup_map_values efs (fun v => v / 1)
          (create_stratified_name "entry_fraction" "age" s)
        rw [hmv]
        rw [hefs]
        simp only at hlook
        rw [hlook]
        simp [hs0]
  · have hbuild := build_entry_fractions_non_age stratification_name strata_names
      requested_proportions hage hadj strata_names
    set efs := strata_names.map (fun s =>
      (create_stratified_name "entry_fraction" stratification_name s,
        1 / (strata_names.length : ℚ))) with hefs
    have hk : ((strata_names.length : ℚ)) ≠ 0 := by
      have hp : 0 < strata_names.length := List.length_pos.2 hne
      exact_mod_cast Nat.pos_iff_ne_zero.1 hp
    have hT : (dictValues efs).sum = 1 := by
      rw [hefs, dictValues_map_pairs, sum_map_const_rat]
      exact mul_one_div_cancel hk
    have hnorm : normalise_dict efs =
        Except.ok (efs.map (fun kv => (kv.1, kv.2 / 1))) := by
      rw [normalise_dict_of_sum_ne_zero (by rw [hT]; norm_num), hT]
    refine ⟨efs, efs.map (fun kv => (kv.1, kv.2 / 1)),
      { m with parameters := dictUpdate m.parameters (efs.map (fun kv => (kv.1, kv.2 / 1))) },
      hbuild, hnorm, ?_, rfl, ?_, ?_⟩
    · unfold Model.stratify_entry_flows
      simp only [hentry, if_true, hbuild, hnorm]
    · have hvals : dictValues (efs.map (fun kv => (kv.1, kv.2 / 1))) =
          (dictValues efs).map (fun v => v / 1) := by
        simp only [dictValues, List.map_map]
        rfl
      rw [hvals]
      have hid : (dictValues efs).map (fun v => v / 1) = dictValues efs :=
        (List.map_congr_left (fun v hv => div_one v)).trans (List.map_id _)
      rw [hid, hT]
    · intro hcontra
      exact absurd hcontra hage

/-- C7 witness: an age stratification of the entry compartment into strata
"0" and "5" records entry fractions 1 for the stratum "0" and 0 for the
stratum "5", summing to 1. -/
theorem C7_entry_fraction_normalisation_witness :
    ∃ entry_fractions normalised m',
      build_entry_fractions "age" ["0", "5"] [] ["0", "5"] =
        Except.ok entry_fractions ∧
      normalise_dict entry_fractions = Except.ok normalised ∧
      mC7w.stratify_entry_flows "age" ["0", "5"] [] = Except.ok m' ∧
      m'.parameters = dictUpdate mC7w.parameters normalised ∧
      (dictValues normalised).sum = 1 ∧
      ("age" = "age" →
        dictLookup normalised (create_stratified_name "entry_fraction" "age" "0") =
          some 1 ∧
        ∀ s ∈ ["0", "5"], s ≠ "0" →
          dictLookup normalised (create_stratified_name "entry_fraction" "age" s) =
            some 0) :=
  C7_entry_fraction_normalisation mC7w "age" ["0", "5"] []
    (by decide) (by decide) (by decide) rfl (fun _ => by decide)

/-- C8: with birth approach "no_birth" (the code's name for no births), no
compartment-specific death flows and a universal death rate resolving to 0 at
the evaluation time, whenever the full right-hand-side evaluation returns a
rate vector its components sum to 0 — every transition flow subtracts from
its origin exactly what it adds to its destination — so total population is
conserved, for every state vector and every time. -/
theorem C8_conservation (m : Model) (values : List ℚ) (t : ℚ)
    (result : List ℚ × Dict ℚ)
    (hb : m.birth_approach = "no_birth")
    (hd : m.death_flows = [])
    (hu : m.get_parameter_value "universal_death_rate" t = Except.ok 0)
    (h : m.apply_all_flow_types_to_odes
      (List.replicate m.compartment_names.length 0) values t = Except.ok result) :
    result.1.sum = 0 := by
  unfold Model.apply_all_flow_types_to_odes at h
  cases h₁ : m.apply_transition_flows
      (List.replicate m.compartment_names.length 0) values t with
  | error e => rw [h₁] at h; exact absurd h (by simp)
  | ok ode₁ =>
    rw [h₁] at h
    rw [hd] at h
    simp only [List.length_nil, gt_iff_lt, lt_irrefl, if_false] at h
    obtain ⟨hs₁, hl₁⟩ := apply_transition_flows_aux_sum _ _ _
      (by rw [List.length_replicate]) h₁
    cases h₂ : apply_universal_death_flow_aux m values t m.compartment_names ode₁
        m.tracked_quantities with
    | error e => rw [h₂] at h; exact absurd h (by simp)
    | ok out₂ =>
      rw [h₂] at h
      simp only at h
      obtain ⟨hs₂, hl₂⟩ := apply_universal_death_flow_aux_sum hu m.compartment_names
        ode₁ m.tracked_quantities out₂ (by rw [hl₁, List.length_replicate]) h₂
      rw [find_total_births_no_birth hb] at h
      simp only at h
      cases h₃ : apply_birth_rate_aux m 0 m.compartment_names out₂.1 with
      | error e => rw [h₃] at h; exact absurd h (by simp)
      | ok ode₄ =>
        rw [h₃] at h
        simp only [Except.ok.injEq] at h
        obtain ⟨hs₃, hl₃⟩ := apply_birth_rate_aux_zero_sum m.compartment_names out₂.1
          ode₄ (by rw [hl₂, hl₁, List.length_replicate]) h₃
        rw [← h]
        show ode₄.sum = 0
        rw [hs₃, hs₂, hs₁, List.sum_replicate]
        simp

/-- C8 witness: the empty model with no compartments, no flows, birth
approach "no_birth" and a zero universal-death component evaluates its
right-hand side to the empty rate vector, whose components sum to 0. -/
theorem C8_conservation_witness :
    mC8w.apply_all_flow_types_to_odes
      (List.replicate mC8w.compartment_names.length 0) [] 0 =
      Except.ok ([], []) ∧
    (([], []) : List ℚ × Dict ℚ).1.sum = 0 :=
  ⟨rfl, C8_conservation mC8w [] 0 ([], []) rfl rfl rfl rfl⟩

/-- A concrete non-degenerate instance of conservation: in `mC8` the single
active standard flow moves mass 2 * 3 = 6 from "a" to "b", yielding the rate
vector [-6, 6], whose components sum to 0. -/
theorem mC8_rhs_eval :
    mC8.apply_all_flow_types_to_odes (List.replicate 2 0) [3, 4] 0 =
      Except.ok ([-6, 6], []) ∧ ((-6 : ℚ) + 6 = 0) := by
  constructor
  · norm_num +decide [Model.apply_all_flow_types_to_odes, Model.apply_transition_flows,
      Model.active_transition_flows, apply_transition_flows_aux, apply_flow,
      Model.get_parameter_value, eval_time_variants, Model.find_infectious_multiplier,
      apply_universal_death_flow_aux, track_deaths, Model.find_total_births,
      apply_birth_rate_aux, compartment_entry_fraction, entry_fraction_segments,
      entry_fraction_lookup_product, extract_x_positions, increment_compartment,
      pyIndex, find_stem, dictLookup, mC8, emptyModel, List.replicate]
  · norm_num

/-- The step of `apply_transition_flows` for a frequency-dependent flow
always fails when the tracked total population is zero: either an earlier
lookup fails, or the division guard of the embedded Python division raises
ZeroDivisionError. -/
theorem apply_flow_freq_total_zero_errors {m : Model} {values : List ℚ} {t : ℚ}
    {f : TransitionFlow}
    (htot : dictLookup m.tracked_quantities "total_population" = some 0)
    (hf : f.type = "infection_frequency") :
    ∀ ode, ∃ e, apply_flow m values t ode f = Except.error e := by
  intro ode
  unfold apply_flow
  cases h₁ : m.get_parameter_value f.parameter t with
  | error e => exact ⟨e, rfl⟩
  | ok adjusted =>
    have hmul : ∃ e, m.find_infectious_multiplier f.type = Except.error e := by
      unfold Model.find_infectious_multiplier
      rw [hf, if_neg (by decide), if_pos rfl]
      cases hip : dictLookup m.tracked_quantities "infectious_population" with
      | none => exact ⟨_, rfl⟩
      | some ip =>
        rw [htot]
        exact ⟨"ZeroDivisionError", rfl⟩
    obtain ⟨e, he⟩ := hmul
    rw [he]
    exact ⟨e, rfl⟩

/-- If some flow in the list is frequency-dependent and the tracked total
population is zero, the transition-flow loop cannot return a rate vector. -/
theorem apply_transition_flows_aux_error {m : Model} {values : List ℚ} {t : ℚ}
    (htot : dictLookup m.tracked_quantities "total_population" = some 0) :
    ∀ (flows : List TransitionFlow),
      (∃ f ∈ flows, f.type = "infection_frequency") →
      ∀ ode, ∃ e, apply_transition_flows_aux m values t flows ode = Except.error e := by
  intro flows
  induction flows with
  | nil =>
    rintro ⟨f, hf, _⟩
    simp at hf
  | cons g rest ih =>
    rintro ⟨f, hf, hftype⟩ ode
    rw [show apply_transition_flows_aux m values t (g :: rest) ode =
        (match apply_flow m values t ode g with
         | Except.error e => Except.error e
         | Except.ok ode₁ => apply_transition_flows_aux m values t rest ode₁)
        from rfl]
    cases hstep : apply_flow m values t ode g with
    | error e => exact ⟨e, rfl⟩
    | ok ode₁ =>
      cases hf with
      | head =>
        obtain ⟨e, he⟩ := apply_flow_freq_total_zero_errors htot hftype ode
        rw [he] at hstep
        exact absurd hstep (by simp)
      | tail _ hmem =>
        obtain ⟨e, he⟩ := ih ⟨f, hmem, hftype⟩ ode₁
        exact ⟨e, he⟩

/-- C9: with a tracked total population of zero, the frequency-dependent
infectious multiplier is computed as infectious over total population with
no guard — the embedded division raises ZeroDivisionError — and any
right-hand-side transition evaluation whose active flows include a
frequency-dependent flow fails rather than being silently handled. -/
theorem C9_frequency_division_unguarded (m : Model) (values ode : List ℚ) (t : ℚ)
    (htot : dictLookup m.tracked_quantities "total_population" = some 0)
    (hinf : ∃ ip, dictLookup m.tracked_quantities "infectious_population" = some ip)
    (hflow : ∃ f ∈ m.transition_flows, f.implement = m.strata.length ∧
      f.type = "infection_frequency") :
    m.find_infectious_multiplier "infection_frequency" =
      Except.error "ZeroDivisionError" ∧
    ∃ e, m.apply_transition_flows ode values t = Except.error e := by
  constructor
  · obtain ⟨ip, hip⟩ := hinf
    unfold Model.find_infectious_multiplier
    rw [if_neg (by decide), if_pos rfl, hip, htot]
    rfl
  · obtain ⟨f, hf, himpl, htype⟩ := hflow
    unfold Model.apply_transition_flows
    apply apply_transition_flows_aux_error htot
    refine ⟨f, ?_, htype⟩
    unfold Model.active_transition_flows
    exact List.mem_filter.2 ⟨hf, by simp [himpl]⟩

/-- C9 witness: in `mC9` (one active frequency-dependent flow, tracked
infectious population 1 and tracked total population 0) the multiplier is a
ZeroDivisionError and the transition evaluation fails. -/
theorem C9_frequency_division_unguarded_witness :
    mC9.find_infectious_multiplier "infection_frequency" =
      Except.error "ZeroDivisionError" ∧
    ∃ e, mC9.apply_transition_flows [0, 0] [3, 4] 0 = Except.error e :=
  C9_frequency_division_unguarded mC9 [3, 4] [0, 0] 0 rfl ⟨1, rfl⟩
    ⟨{ type := "infection_frequency", parameter := "p", origin := "a", toC := "b",
       implement := 0 }, by decide, rfl, rfl⟩

end SummerModel
